import Mathlib

/-!
# Verification of the stacking-physics orchestration layer of Csstform/builders

Shallow embedding of the game's orchestration logic (piece lifecycle, landing
and fall detection, lives, spawn planning, camera smoothing, stability
estimate) translated from the JavaScript sources:

* `src/js/constants.js` (constants + pieces + collision modules),
* `src/js/physics.js` (platform geometry, engine setup),
* `src/js/gameState.js` (the mutable game state),
* `src/js/game.js` (game-over handling, game loop),
* `src/sw.js` (camera, stability, tower height).

Coordinates and velocities are rationals (`ℚ`); the y axis grows downward as
in the source.  The Matter.js rigid-body engine is external to the layer under
specification: its per-tick motion of bodies, its collision reports
(`Matter.Collision.collides`, `collisionStart` pairs) and its region queries
are modelled as oracle inputs / nondeterministic kinematic updates, while all
decision logic written in the repository is embedded verbatim.
-/

/-- 2-d vector, as Matter.js `{x, y}` records. -/
structure Vec2 where
  x : ℚ
  y : ℚ
  deriving DecidableEq, Repr

/-- Axis-aligned bounding box, as Matter.js `body.bounds` (`min`/`max` corners). -/
structure Bounds where
  minx : ℚ
  miny : ℚ
  maxx : ℚ
  maxy : ℚ
  deriving DecidableEq, Repr

/-- The per-body data the orchestration layer reads from / writes to a
Matter.js body: position, velocity, angular velocity, bounding box, world
vertices, the sleep flag, and the two `body.userData` cooldown flags that
`movePiece` / `rotatePiece` store on the body. -/
structure Body where
  position : Vec2
  velocity : Vec2
  angularVelocity : ℚ
  bounds : Bounds
  vertices : List Vec2
  isSleeping : Bool
  moveCooldown : Bool
  rotateCooldown : Bool
  deriving DecidableEq, Repr

/-- A game piece (`gameState.pieces` element): its rigid body and the
write-once `hasLanded` flag.  JavaScript identifies pieces by object
reference; the model uses a numeric `id` issued at spawn time for the same
purpose.  (The `type`/`color` tags are rendering data and are not modelled.) -/
structure Piece where
  id : ℕ
  body : Body
  hasLanded : Bool
  deriving DecidableEq, Repr

/-- `gameState.camera` (the `x` component is never written by the layer). -/
structure Camera where
  x : ℚ
  y : ℚ
  targetY : ℚ
  deriving DecidableEq, Repr

/-- The orchestration-layer game state (`src/js/gameState.js`).
`currentPiece` stores the id of the active piece (`none` = JS `null`).
`pendingSpawns` counts the `setTimeout(spawnNewPiece, …)` callbacks currently
scheduled (by `handlePieceLanded` and `loseLife`); `nextId` is the model's
fresh-id counter standing for JS object identity.  Rendering-only fields
(particles, volume, high scores, tutorial, performance) are omitted: no
modelled branch reads them. -/
structure GameState where
  score : ℤ
  height : ℤ
  lives : ℤ
  gameOver : Bool
  currentPiece : Option ℕ
  pieces : List Piece
  camera : Camera
  isPaused : Bool
  pendingSpawns : ℕ
  nextId : ℕ
  deriving DecidableEq, Repr

/-! ## Constants (`src/js/constants.js`) -/

def BLOCK_SIZE : ℚ := 20
def CANVAS_WIDTH : ℚ := 400
def CANVAS_HEIGHT : ℚ := 600
def SPAWN_X : ℚ := CANVAS_WIDTH / 2
def SPAWN_Y : ℚ := 50
def GROUND_Y : ℚ := CANVAS_HEIGHT - 50
def PLATFORM_WIDTH : ℚ := 200
def PLATFORM_CENTER_X : ℚ := CANVAS_WIDTH / 2
def CAMERA_TRIGGER_HEIGHT : ℚ := 300
def VELOCITY_THRESHOLD : ℚ := 1/5
def GROUND_CONTACT_TOLERANCE : ℚ := 15
def PIECE_CONTACT_TOLERANCE : ℚ := 15

/-- Platform left edge `PLATFORM_CENTER_X - PLATFORM_WIDTH / 2` (collision module). -/
def platformLeft : ℚ := PLATFORM_CENTER_X - PLATFORM_WIDTH / 2

/-- Platform right edge `PLATFORM_CENTER_X + PLATFORM_WIDTH / 2`. -/
def platformRight : ℚ := PLATFORM_CENTER_X + PLATFORM_WIDTH / 2

/-- Bounds of the static ground/platform body created in `initPhysics`
(`src/js/physics.js`): `Matter.Bodies.rectangle(PLATFORM_CENTER_X,
GROUND_Y + 25, PLATFORM_WIDTH, 50)`, i.e. x ∈ [100, 300], y ∈ [550, 600].
Its top (`gameState.ground.bounds.min.y`) is `GROUND_Y`. -/
def groundBounds : Bounds := ⟨platformLeft, GROUND_Y, platformRight, GROUND_Y + 50⟩

/-! ## Geometry helpers -/

/-- `Matter.Bounds.overlaps(boundsA, boundsB)` (used by `Matter.Query.region`). -/
def boundsOverlap (a b : Bounds) : Bool :=
  decide (a.minx ≤ b.maxx) && decide (a.maxx ≥ b.minx) &&
  decide (a.maxy ≥ b.miny) && decide (a.miny ≤ b.maxy)

/-- Least element of a list of rationals.  The JS source folds `Math.min`
starting from `Infinity`; real bodies always have at least three vertices, so
folding from the head is equivalent there. -/
def minQ : List ℚ → ℚ
  | [] => 0
  | a :: t => t.foldl min a

/-- Greatest element of a list of rationals (JS folds `Math.max` from `-Infinity`). -/
def maxQ : List ℚ → ℚ
  | [] => 0
  | a :: t => t.foldl max a

/-- Recompute an axis-aligned bounding box from a vertex list, as
`Matter.Bounds.update` does after a rotation. -/
def boundsOfVertices (vs : List Vec2) : Bounds :=
  ⟨minQ (vs.map Vec2.x), minQ (vs.map Vec2.y), maxQ (vs.map Vec2.x), maxQ (vs.map Vec2.y)⟩

/-- `Matter.Body.translate(body, {x: dx, y: 0})`: shift position, bounds and
vertices horizontally. -/
def translateBodyX (b : Body) (dx : ℚ) : Body :=
  { b with
    position := ⟨b.position.x + dx, b.position.y⟩
    bounds := ⟨b.bounds.minx + dx, b.bounds.miny, b.bounds.maxx + dx, b.bounds.maxy⟩
    vertices := b.vertices.map fun v => ⟨v.x + dx, v.y⟩ }

/-- Geometric effect of `Matter.Body.rotate(body, Math.PI / 2)`: rotate the
world vertices a quarter turn about the body position (exact on ℚ) and refresh
the bounds from the rotated vertices. -/
def rotateBody90 (b : Body) : Body :=
  let p := b.position
  let vs := b.vertices.map fun v => ⟨p.x - (v.y - p.y), p.y + (v.x - p.x)⟩
  { b with vertices := vs, bounds := boundsOfVertices vs }

/-! ## External collision reports

`Matter.Collision.collides` returns `null` or a collision record whose
`supports` array holds the contact points; `collisionStart` delivers pairs
carrying such a record.  These engine outputs are oracle inputs to the layer. -/

/-- A Matter.js collision record as read by this layer (`collided`, `supports`). -/
structure Collision where
  collided : Bool
  supports : List Vec2
  deriving DecidableEq, Repr

/-- Identity of a body in a `collisionStart` pair: the static ground, a wall,
or a piece body (by piece id). -/
inductive BodyRef where
  | ground : BodyRef
  | wall : ℕ → BodyRef
  | piece : ℕ → BodyRef
  deriving DecidableEq, Repr

/-- One element of `event.pairs` in the `collisionStart` handler. -/
structure CollPair where
  a : BodyRef
  b : BodyRef
  collision : Option Collision
  deriving DecidableEq, Repr

/-- Oracle for the engine collision queries made by `checkPieceLanded`:
`Matter.Collision.collides(body, gameState.ground)` and
`Matter.Collision.collides(body, piece.body)` per other piece id. -/
structure PhysOracle where
  groundColl : Option Collision
  pieceColl : ℕ → Option Collision

/-- Oracle reporting no collisions at all. -/
def noCollisions : PhysOracle := ⟨none, fun _ => none⟩

/-! ## Pure contact validators (collision module, `src/js/constants.js`) -/

/-- `isPieceTouchingGround(body, collision)` (src lines 750–790): vertex-based
ground-contact test with a bounding-box fallback. -/
def isPieceTouchingGround (body : Body) (c : Collision) : Bool :=
  if !c.collided then false else
  let touchingVertices := body.vertices.countP fun v =>
    decide (|v.y - groundBounds.miny| ≤ GROUND_CONTACT_TOLERANCE) &&
    decide (platformLeft ≤ v.x) && decide (v.x ≤ platformRight)
  if touchingVertices > 0 then true
  else
    decide (body.bounds.maxy ≥ groundBounds.miny - 3) &&
    decide (body.bounds.maxy ≤ groundBounds.miny + GROUND_CONTACT_TOLERANCE) &&
    decide (body.bounds.maxx ≥ platformLeft) && decide (body.bounds.minx ≤ platformRight)

/-- Vertex-extreme contact fallback of `isPieceAboveOther` (src lines 832–906):
derives both pieces' extremes from their vertices and requires a 20% overlap
fraction along the contact edge. -/
def vertexContactFallback (cur oth : Body) : Bool :=
  let cMinX := minQ (cur.vertices.map Vec2.x)
  let cMaxX := maxQ (cur.vertices.map Vec2.x)
  let cMinY := minQ (cur.vertices.map Vec2.y)
  let cMaxY := maxQ (cur.vertices.map Vec2.y)
  let oMinX := minQ (oth.vertices.map Vec2.x)
  let oMaxX := maxQ (oth.vertices.map Vec2.x)
  let oMinY := minQ (oth.vertices.map Vec2.y)
  let oMaxY := maxQ (oth.vertices.map Vec2.y)
  let tol := PIECE_CONTACT_TOLERANCE
  let topContact :=
    let verticalGap := cMinY - oMaxY
    decide (-tol ≤ verticalGap) && decide (verticalGap ≤ tol) &&
    (let overlapWidth := max 0 (min cMaxX oMaxX - max cMinX oMinX)
     decide (overlapWidth > 0) && decide (overlapWidth / (cMaxX - cMinX) > 1/5))
  let leftContact :=
    let leftGap := cMaxX - oMinX
    decide (-tol ≤ leftGap) && decide (leftGap ≤ tol) &&
    (let overlapHeight := max 0 (min cMaxY oMaxY - max cMinY oMinY)
     decide (overlapHeight > 0) && decide (overlapHeight / (cMaxY - cMinY) > 1/5))
  let rightContact :=
    let rightGap := cMinX - oMaxX
    decide (-tol ≤ rightGap) && decide (rightGap ≤ tol) &&
    (let overlapHeight := max 0 (min cMaxY oMaxY - max cMinY oMinY)
     decide (overlapHeight > 0) && decide (overlapHeight / (cMaxY - cMinY) > 1/5))
  topContact || leftContact || rightContact

/-- `isPieceAboveOther(currentBody, otherBody, collision)` (src lines
800–907): contact-point analysis on `collision.supports`, falling back to
`vertexContactFallback` when no support point qualifies. -/
def isPieceAboveOther (cur oth : Body) (c : Collision) : Bool :=
  if !c.collided then false else
  let supportHit := c.supports.any fun sp =>
    (decide (|sp.y - oth.bounds.maxy| ≤ PIECE_CONTACT_TOLERANCE) &&
     decide (cur.bounds.miny ≤ oth.bounds.maxy + PIECE_CONTACT_TOLERANCE)) ||
    ((decide (|sp.x - oth.bounds.minx| ≤ PIECE_CONTACT_TOLERANCE) ||
      decide (|sp.x - oth.bounds.maxx| ≤ PIECE_CONTACT_TOLERANCE)) &&
     !(decide (cur.bounds.maxy < oth.bounds.miny) || decide (cur.bounds.miny > oth.bounds.maxy)))
  if supportHit then true else vertexContactFallback cur oth

/-- `validateGroundCollision(body, pair)` (src lines 559–586): validate a
`collisionStart` pair against the ground using contact points, with
`isPieceTouchingGround` as fallback. -/
def validateGroundCollision (body : Body) (pr : CollPair) : Bool :=
  match pr.collision with
  | none => false
  | some c =>
    let hit := c.supports.any fun ct =>
      decide (|ct.y - groundBounds.miny| ≤ GROUND_CONTACT_TOLERANCE) &&
      decide (platformLeft ≤ ct.x) && decide (ct.x ≤ platformRight) &&
      decide (body.velocity.y ≥ -(3/10))
    if hit then true else isPieceTouchingGround body ⟨true, []⟩

/-- `validatePieceCollision(currentBody, otherBody, pair)` (src lines
595–635): validate a piece-to-piece `collisionStart` pair, with
`isPieceAboveOther` as fallback. -/
def validatePieceCollision (cur oth : Body) (pr : CollPair) : Bool :=
  match pr.collision with
  | none => false
  | some c =>
    let hit := c.supports.any fun ct =>
      (decide (|ct.y - oth.bounds.maxy| ≤ PIECE_CONTACT_TOLERANCE) &&
       decide (cur.bounds.miny ≥ oth.bounds.maxy - PIECE_CONTACT_TOLERANCE) &&
       !(decide (cur.bounds.maxx < oth.bounds.minx) ||
         decide (cur.bounds.minx > oth.bounds.maxx)) &&
       decide (cur.velocity.y ≥ -(3/10))) ||
      ((decide (|ct.x - oth.bounds.minx| ≤ PIECE_CONTACT_TOLERANCE) ||
        decide (|ct.x - oth.bounds.maxx| ≤ PIECE_CONTACT_TOLERANCE)) &&
       !(decide (cur.bounds.maxy < oth.bounds.miny) ||
         decide (cur.bounds.miny > oth.bounds.maxy)) &&
       decide (cur.velocity.y ≥ -(3/10)))
    if hit then true else isPieceAboveOther cur oth ⟨true, []⟩

/-! ## State operations -/

/-- Resolve the active-piece reference to the piece record it denotes
(JavaScript holds the object itself; in every well-formed state the active
reference denotes a piece of `gameState.pieces`, since pieces enter via
`spawnNewPiece`, which pushes the new current piece, and no path removes the
current piece from the list while it stays current). -/
def findCurrent (s : GameState) : Option Piece :=
  s.currentPiece.bind fun cid => s.pieces.find? fun p => p.id = cid

/-- Update the body of the piece with the given id (JS mutates the shared
piece object in place). -/
def updatePieceBody (s : GameState) (pid : ℕ) (b : Body) : GameState :=
  { s with pieces := s.pieces.map fun (q : Piece) => if q.id = pid then { q with body := b } else q }

/-- `calculateFinalScore()` (src/js/game.js lines 89–124, sans the external
localStorage high-score persistence): final height is the tallest point of
ANY piece over `GROUND_Y`, floored to blocks, 100 points a block. -/
def calculateFinalScore (s : GameState) : GameState :=
  let maxHeight := s.pieces.foldl (fun acc p => max acc (GROUND_Y - p.body.bounds.miny)) 0
  let h := ⌊maxHeight / BLOCK_SIZE⌋
  { s with height := h, score := h * 100 }

/-- `gameOver()` (src/js/game.js lines 156–161): set the terminal flag, stop
the engine (external), compute the final score, show the screen (external). -/
def gameOverNow (s : GameState) : GameState :=
  calculateFinalScore { s with gameOver := true }

/-- `loseLife()` (src/js/constants.js lines 933–950): decrement lives; at
`lives ≤ 0` call the injected `gameOverFn`, otherwise schedule
`spawnNewPiece` after a 2000 ms delay (one more pending spawn timer). -/
def loseLife (s : GameState) : GameState :=
  let s := { s with lives := s.lives - 1 }
  if s.lives ≤ 0 then gameOverNow s
  else { s with pendingSpawns := s.pendingSpawns + 1 }

/-- `handlePieceLanded()` (src/js/constants.js lines 640–671): guarded by the
`hasLanded` idempotency check; marks the piece landed, clears the active
reference and schedules the next spawn after `SPAWN_DELAY`.  The deferred
engine sleep hint, the landing particles and the sound are external effects. -/
def handlePieceLanded (s : GameState) : GameState :=
  match findCurrent s with
  | none => s
  | some p =>
    if p.hasLanded then s
    else
      let s :=
        { s with pieces := s.pieces.map fun (q : Piece) =>
            if q.id = p.id then { q with hasLanded := true } else q }
      { s with currentPiece := none, pendingSpawns := s.pendingSpawns + 1 }

/-- `checkPieceFell()` (src/js/constants.js lines 486–509).  Note two
source peculiarities kept by the model: the function does not remove the
fallen piece from `gameState.pieces` (it only clears the active reference and
decrements lives), and the side-fall check runs on the captured bounds even
after the below-ground branch already fired, so both branches can decrement
lives in one call. -/
def checkPieceFell (s : GameState) : GameState :=
  match findCurrent s with
  | none => s
  | some p =>
    let bounds := p.body.bounds
    let s1 :=
      if bounds.miny > GROUND_Y + 50 then
        { loseLife s with currentPiece := none }
      else s
    if (bounds.minx < platformLeft ∨ bounds.maxx > platformRight) ∧
        bounds.miny > GROUND_Y - 20 then
      { loseLife s1 with currentPiece := none }
    else s1

/-- One iteration of the `checkAllPiecesFell` loop at index `i`
(src/js/constants.js lines 522–549): skip the current piece, otherwise remove
the piece and lose a life when it is fully below the platform underside
(`bounds.min.y > GROUND_Y + 50`) or beside the platform while at platform
level (`(min.x < platformLeft ∨ max.x > platformRight) ∧ min.y > GROUND_Y − 20`). -/
def processIndex (s : GameState) (i : ℕ) : GameState :=
  match s.pieces[i]? with
  | none => s
  | some p =>
    if s.currentPiece = some p.id then s
    else if p.body.bounds.miny > GROUND_Y + 50 then
      loseLife { s with pieces := s.pieces.eraseIdx i }
    else if (p.body.bounds.minx < platformLeft ∨ p.body.bounds.maxx > platformRight) ∧
        p.body.bounds.miny > GROUND_Y - 20 then
      loseLife { s with pieces := s.pieces.eraseIdx i }
    else s

/-- The `for (let i = pieces.length - 1; i >= 0; i--)` sweep: process the
indices `n-1, n-2, …, 0` in order (splicing index `i` only shifts
already-processed higher indices, so the descending loop visits each original
element exactly once). -/
def sweepFrom : ℕ → GameState → GameState
  | 0, s => s
  | i + 1, s => sweepFrom i (processIndex s (i + 1 - 1))

/-- `checkAllPiecesFell()` (src/js/constants.js lines 515–550): early-return
on `gameOver` (checked once at entry only; a game over raised inside the loop
does not stop the remaining iterations). -/
def checkAllPiecesFell (s : GameState) : GameState :=
  if s.gameOver then s else sweepFrom s.pieces.length s

/-- The per-other-piece half of `checkPieceLanded`'s Method 2: the engine
collision query `Matter.Collision.collides(body, piece.body)` (oracle)
validated through `isPieceAboveOther`; the JS loop breaks at the first hit. -/
def pieceLoopLanded (s : GameState) (p : Piece) (o : PhysOracle) : Bool :=
  s.pieces.any fun q =>
    q.id ≠ p.id &&
      match o.pieceColl q.id with
      | some c => c.collided && isPieceAboveOther p.body q.body c
      | none => false

/-- `checkPieceLanded()` (src/js/constants.js lines 678–741): polling
fallback landing detection.  The JS test `velocityMagnitude <
VELOCITY_THRESHOLD` with `velocityMagnitude = sqrt(vx² + vy²)` is embedded
as `vx² + vy² < VELOCITY_THRESHOLD²` (equivalent, both sides nonnegative);
likewise for the `0.7` factor in Method 3. -/
def checkPieceLanded (s : GameState) (o : PhysOracle) : GameState :=
  match findCurrent s with
  | none => s
  | some p =>
    if p.hasLanded then s
    else
      let body := p.body
      let velSq := body.velocity.x ^ 2 + body.velocity.y ^ 2
      if velSq < VELOCITY_THRESHOLD ^ 2 then
        let landed1 :=
          match o.groundColl with
          | some c => c.collided && isPieceTouchingGround body c
          | none => false
        let landed2 := landed1 || pieceLoopLanded s p o
        let landed3 := landed2 ||
          (decide (body.bounds.maxy ≥ groundBounds.miny - 5) &&
           decide (body.bounds.maxy ≤ groundBounds.miny + GROUND_CONTACT_TOLERANCE) &&
           decide (body.bounds.maxx ≥ platformLeft - 5) &&
           decide (body.bounds.minx ≤ platformRight + 5) &&
           decide (velSq < (VELOCITY_THRESHOLD * (7/10)) ^ 2))
        if landed3 then handlePieceLanded s else s
      else s

/-- The `afterUpdate` engine-event handler (src/js/constants.js lines
469–479).  When `checkPieceFell` clears the active reference, the next JS
line reads `gameState.currentPiece.hasLanded` on `null` and the handler
aborts with a TypeError before reaching `checkAllPiecesFell`; the model
returns the state as left by `checkPieceFell` in that case (the surrounding
`requestAnimationFrame` loop survives the exception, so the next tick runs). -/
def afterUpdateHandler (s : GameState) (o : PhysOracle) : GameState :=
  if s.currentPiece.isSome then
    let s1 := checkPieceFell s
    match findCurrent s1 with
    | none => s1
    | some p =>
      let s2 := if !p.hasLanded then checkPieceLanded s1 o else s1
      checkAllPiecesFell s2
  else checkAllPiecesFell s

/-- Loop body of the `collisionStart` handler (src/js/constants.js lines
442–465): find a pair involving the current body; a validated contact with
the ground or a locked piece lands the piece and stops the loop, otherwise
scanning continues. -/
def collideLoop (s : GameState) (p : Piece) : List CollPair → GameState
  | [] => s
  | pr :: rest =>
    let other? : Option BodyRef :=
      if pr.a = BodyRef.piece p.id then some pr.b
      else if pr.b = BodyRef.piece p.id then some pr.a
      else none
    match other? with
    | none => collideLoop s p rest
    | some BodyRef.ground =>
      if validateGroundCollision p.body pr then handlePieceLanded s
      else collideLoop s p rest
    | some (BodyRef.piece qid) =>
      match s.pieces.find? (fun q => q.id = qid && q.id ≠ p.id) with
      | some q =>
        if validatePieceCollision p.body q.body pr then handlePieceLanded s
        else collideLoop s p rest
      | none => collideLoop s p rest
    | some (BodyRef.wall _) => collideLoop s p rest

/-- The `collisionStart` engine-event handler (src/js/constants.js lines
436–466), guarded by the `hasLanded` idempotency check. -/
def collisionStartHandler (s : GameState) (pairs : List CollPair) : GameState :=
  match findCurrent s with
  | none => s
  | some p => if p.hasLanded then s else collideLoop s p pairs

/-- The rectangular region `testBounds` queried around a candidate spawn
point (src/js/constants.js lines 196–199): ±2·BLOCK_SIZE horizontally,
±BLOCK_SIZE vertically. -/
def spawnTestBounds (pt : Vec2) : Bounds :=
  ⟨pt.x - BLOCK_SIZE * 2, pt.y - BLOCK_SIZE, pt.x + BLOCK_SIZE * 2, pt.y + BLOCK_SIZE⟩

/-- `findSafeSpawnPosition()` (src/js/constants.js lines 185–215).  The JS
`Matter.Query.region(engine.world.bodies, testBounds)` filter keeps exactly
the bodies that belong to `gameState.pieces` (ground and walls are filtered
out), so the model queries the piece list directly. -/
def findSafeSpawnPosition (s : GameState) : Vec2 :=
  let cameraOffset := s.camera.y
  let spawnY := SPAWN_Y + cameraOffset
  let spawnX := SPAWN_X
  let minSpawnY := cameraOffset - 100
  let spawnY := min spawnY minSpawnY
  let testBounds := spawnTestBounds ⟨spawnX, spawnY⟩
  let hasCollision := s.pieces.any fun p => boundsOverlap p.body.bounds testBounds
  if hasCollision then ⟨spawnX, cameraOffset - 150⟩ else ⟨spawnX, spawnY⟩

/-- `spawnNewPiece()` (src/js/constants.js lines 221–247): no-op on
`gameOver`; otherwise create the next piece's compound body at the safe
spawn position, set it current (`hasLanded: false`) and push it.  The body
built by `createTetrominoBody` for the pending tetromino shape is engine
data and enters as the oracle `bodyAt`; the RNG draw of the following
`nextPiece` and the preview rendering are external. -/
def spawnNewPiece (s : GameState) (bodyAt : Vec2 → Body) : GameState :=
  if s.gameOver then s
  else
    let pos := findSafeSpawnPosition s
    let newPiece : Piece := { id := s.nextId, body := bodyAt pos, hasLanded := false }
    { s with
      currentPiece := some newPiece.id
      pieces := s.pieces ++ [newPiece]
      nextId := s.nextId + 1 }

/-- Direction argument of `movePiece`. -/
inductive Dir where
  | left : Dir
  | right : Dir
  deriving DecidableEq, Repr

/-- `movePiece(direction)` (src/js/constants.js lines 285–342): guarded by
`!currentPiece || gameOver` (pause is NOT checked); wakes the body, clamps a
half-block step into `[BLOCK_SIZE/2 + 25, CANVAS_WIDTH − BLOCK_SIZE/2 − 25]`,
translates, damps horizontal velocity to 0.3×, preserves vertical velocity,
zeroes angular velocity, and (when not already set) stores the
`{ moveCooldown: true }` userData record — overwriting any rotate flag — with
a timer that later clears it. -/
def movePiece (s : GameState) (dir : Dir) : GameState :=
  if s.currentPiece.isNone || s.gameOver then s
  else
    match findCurrent s with
    | none => s
    | some p =>
      let body := { p.body with isSleeping := false }
      let x := body.position.x
      let newX :=
        match dir with
        | Dir.left => max (BLOCK_SIZE / 2 + 25) (x - BLOCK_SIZE / 2)
        | Dir.right => min (CANVAS_WIDTH - BLOCK_SIZE / 2 - 25) (x + BLOCK_SIZE / 2)
      let body := translateBodyX body (newX - x)
      let body :=
        { body with
          velocity := ⟨body.velocity.x * (3/10), body.velocity.y⟩
          angularVelocity := 0 }
      let body :=
        if !body.moveCooldown then { body with moveCooldown := true, rotateCooldown := false }
        else body
      updatePieceBody s p.id body

/-- `rotatePiece()` (src/js/constants.js lines 348–386): same guard as
`movePiece`; wakes the body; when not on rotate cooldown, sets the cooldown
flag (spreading the existing userData), rotates a quarter turn, damps
horizontal velocity to 0.8×, zeroes angular velocity. -/
def rotatePiece (s : GameState) : GameState :=
  if s.currentPiece.isNone || s.gameOver then s
  else
    match findCurrent s with
    | none => s
    | some p =>
      let body := { p.body with isSleeping := false }
      if !body.rotateCooldown then
        let body := { body with rotateCooldown := true }
        let body := rotateBody90 body
        let body :=
          { body with
            velocity := ⟨body.velocity.x * (4/5), body.velocity.y⟩
            angularVelocity := 0 }
        updatePieceBody s p.id body
      else updatePieceBody s p.id body

/-- `dropPiece()` (src/js/constants.js lines 391–415): same guard; wakes the
body and sets velocity to `(0.9·vx, max(vy, 2))`. -/
def dropPiece (s : GameState) : GameState :=
  if s.currentPiece.isNone || s.gameOver then s
  else
    match findCurrent s with
    | none => s
    | some p =>
      let body := { p.body with isSleeping := false }
      let body := { body with velocity := ⟨body.velocity.x * (9/10), max body.velocity.y 2⟩ }
      updatePieceBody s p.id body

/-- The camera target computed by `updateCamera()` (src/sw.js lines
167–184): the highest locked-piece top (`min` of `bounds.min.y` over
non-current pieces, seeded with `GROUND_Y`) gives the tower height;
beyond `CAMERA_TRIGGER_HEIGHT` the target is `−(towerHeight − trigger)`,
else 0. -/
def camTargetY (s : GameState) : ℚ :=
  let maxHeight := s.pieces.foldl
    (fun acc p => if s.currentPiece = some p.id then acc else min acc p.body.bounds.miny)
    GROUND_Y
  let towerHeight := GROUND_Y - maxHeight
  if towerHeight > CAMERA_TRIGGER_HEIGHT then -(towerHeight - CAMERA_TRIGGER_HEIGHT) else 0

/-- `updateCamera()` (src/sw.js lines 164–195): no-op when there are no
pieces; otherwise store the target and advance the offset by 5% of the
remaining distance (`camera.y += diff * 0.05`).  `Matter.Render.lookAt` is
rendering. -/
def updateCamera (s : GameState) : GameState :=
  if s.pieces.isEmpty then s
  else
    let t := camTargetY s
    { s with camera := { s.camera with targetY := t, y := s.camera.y + (t - s.camera.y) * (1/20) } }

/-- JavaScript `Math.round` on the nonnegative stability mean:
`Math.round(x) = ⌊x + 1/2⌋`. -/
def jsRound (q : ℚ) : ℤ := ⌊q + 1/2⌋

/-- Whether a piece is the active one (`piece === gameState.currentPiece`). -/
def isCurrent (s : GameState) (p : Piece) : Prop := s.currentPiece = some p.id

instance (s : GameState) (p : Piece) : Decidable (isCurrent s p) := by
  unfold isCurrent; infer_instance

/-- The per-piece support count of `calculateStability` (src/sw.js lines
303–316): bodies returned by `Matter.Query.region(engine.world.bodies,
bounds)` that are neither the piece itself nor the ground/walls — i.e. the
other piece bodies whose bounds overlap — and that sit within the ±5 vertical
tolerance band. -/
def supportCount (s : GameState) (p : Piece) : ℕ :=
  (s.pieces.filter fun q =>
    q.id ≠ p.id && boundsOverlap q.body.bounds p.body.bounds &&
    decide (q.body.bounds.maxy ≥ p.body.bounds.miny - 5) &&
    decide (q.body.bounds.miny ≤ p.body.bounds.maxy + 5)).length

/-- The per-piece support score of `calculateStability` (src/sw.js lines
295–320): 100 when resting on the ground band (`bounds.max.y ≥ GROUND_Y − 5`),
else 30 per supporting neighbour capped at 100. -/
def supportScore (s : GameState) (p : Piece) : ℚ :=
  if p.body.bounds.maxy ≥ GROUND_Y - 5 then 100
  else min 100 (30 * (supportCount s p : ℚ))

/-- The `forEach` accumulator of `calculateStability`: total stability and
piece count over non-current pieces, in list order. -/
def stabilityFold (s : GameState) : ℚ × ℕ :=
  s.pieces.foldl
    (fun acc p => if isCurrent s p then acc else (acc.1 + supportScore s p, acc.2 + 1))
    (0, 0)

/-- `calculateStability()` (src/sw.js lines 283–327). -/
def calculateStability (s : GameState) : ℤ :=
  if s.pieces.length = 0 then 100
  else
    let acc := stabilityFold s
    if acc.2 > 0 then jsRound (acc.1 / (acc.2 : ℚ)) else 100

/-- The locked pieces as `calculateStability`/`updateCamera` see them: every
listed piece other than the active one. -/
def lockedPieces (s : GameState) : List Piece :=
  s.pieces.filter fun p => !decide (isCurrent s p)

/-- `calculateTowerHeight()` (src/sw.js lines 334–353): live height/score
recomputation over non-current pieces (score untouched when no pieces). -/
def calculateTowerHeight (s : GameState) : GameState :=
  if s.pieces.isEmpty then { s with height := 0 }
  else
    let maxHeight := s.pieces.foldl
      (fun acc p => if s.currentPiece = some p.id then acc
                    else max acc (GROUND_Y - p.body.bounds.miny))
      0
    let h := ⌊maxHeight / BLOCK_SIZE⌋
    { s with height := h, score := h * 100 }

/-- `togglePause()` (src/js/game.js lines 20–34): flip the pause flag
(engine stop/run and the overlay are external). -/
def togglePause (s : GameState) : GameState := { s with isPaused := !s.isPaused }

/-- The `setTimeout` bodies clearing the movement cooldown flag
(src/js/constants.js lines 338–340). -/
def clearMoveCooldown (s : GameState) (pid : ℕ) : GameState :=
  { s with pieces := s.pieces.map fun (q : Piece) =>
      if q.id = pid then { q with body := { q.body with moveCooldown := false } } else q }

/-- The `setTimeout` body clearing the rotation cooldown flag
(src/js/constants.js lines 382–384). -/
def clearRotateCooldown (s : GameState) (pid : ℕ) : GameState :=
  { s with pieces := s.pieces.map fun (q : Piece) =>
      if q.id = pid then { q with body := { q.body with rotateCooldown := false } } else q }

/-! ## The tick-level transition system

One `Step` is one atomic event of the single-threaded session: an engine
physics update (external motion of the bodies), one of the two engine event
handlers, a scheduled `spawnNewPiece` timeout firing, an input command, a
game-loop frame (camera / UI recomputation, which run only while neither
paused nor over), a pause toggle, or a cooldown-clearing timeout.  Session
restart (`restartGame`) is deliberately excluded: the claims quantify over a
single session. -/

/-- An engine physics update may move every piece body arbitrarily (and flip
its sleep flag) but preserves identity, the `hasLanded` flag and the
`userData` cooldown flags, which only game code writes. -/
def KinUpdate (l l' : List Piece) : Prop :=
  List.Forall₂
    (fun p q => p.id = q.id ∧ p.hasLanded = q.hasLanded ∧
      p.body.moveCooldown = q.body.moveCooldown ∧
      p.body.rotateCooldown = q.body.rotateCooldown)
    l l'

/-- One atomic event of a running session. -/
inductive Step : GameState → GameState → Prop
  | physics {s : GameState} {ps' : List Piece} :
      s.isPaused = false → KinUpdate s.pieces ps' → Step s { s with pieces := ps' }
  | afterU {s : GameState} (o : PhysOracle) :
      s.isPaused = false → Step s (afterUpdateHandler s o)
  | collide {s : GameState} (pairs : List CollPair) :
      s.isPaused = false → Step s (collisionStartHandler s pairs)
  | spawnTimer {s : GameState} (bodyAt : Vec2 → Body) :
      s.pendingSpawns ≠ 0 →
      Step s (spawnNewPiece { s with pendingSpawns := s.pendingSpawns - 1 } bodyAt)
  | moveCmd {s : GameState} (d : Dir) : Step s (movePiece s d)
  | rotateCmd {s : GameState} : Step s (rotatePiece s)
  | dropCmd {s : GameState} : Step s (dropPiece s)
  | camTick {s : GameState} :
      s.gameOver = false → s.isPaused = false → Step s (updateCamera s)
  | uiTick {s : GameState} :
      s.gameOver = false → s.isPaused = false → Step s (calculateTowerHeight s)
  | pauseCmd {s : GameState} : Step s (togglePause s)
  | clearMoveCd {s : GameState} (pid : ℕ) : Step s (clearMoveCooldown s pid)
  | clearRotateCd {s : GameState} (pid : ℕ) : Step s (clearRotateCooldown s pid)

/-- The state built in `gameState.js` before `initGame` spawns the first
piece: 3 lives, empty world, camera at the origin. -/
def freshState : GameState :=
  { score := 0, height := 0, lives := 3, gameOver := false, currentPiece := none,
    pieces := [], camera := ⟨0, 0, 0⟩, isPaused := false, pendingSpawns := 0, nextId := 0 }

/-- States a single session can be in: `initGame` spawns the first piece from
`freshState`, after which the session evolves by `Step` events. -/
inductive Reachable : GameState → Prop
  | init (bodyAt : Vec2 → Body) : Reachable (spawnNewPiece freshState bodyAt)
  | step {s s' : GameState} : Reachable s → Step s s' → Reachable s'

/-! ## Well-formedness and piece-provenance predicates -/

/-- Well-formedness of a session state: ids are fresh and unique (modelling
JS object identity), the active-piece reference denotes a listed piece that
has not landed, and a session with no lives left has been flagged game over. -/
def WF (s : GameState) : Prop :=
  (∀ p ∈ s.pieces, p.id < s.nextId) ∧
  (s.pieces.map Piece.id).Nodup ∧
  (∀ cid, s.currentPiece = some cid →
    ∃ p, p ∈ s.pieces ∧ p.id = cid ∧ p.hasLanded = false) ∧
  (s.lives ≤ 0 → s.gameOver = true)

/-- Piece provenance between two piece lists: every piece of `l'` descends
from a piece of `l` with the same id whose `hasLanded` flag was not unset. -/
def Trace (l l' : List Piece) : Prop :=
  ∀ p' ∈ l', ∃ q ∈ l, q.id = p'.id ∧ (q.hasLanded = true → p'.hasLanded = true)

/-- `hasLanded` is write-once from `s` to `s'` (stated through ids, the
model's stand-in for JS object identity). -/
def FlagMono (s s' : GameState) : Prop :=
  ∀ p ∈ s.pieces, ∀ p' ∈ s'.pieces, p.id = p'.id → p.hasLanded = true → p'.hasLanded = true


/-! ## Concrete session data

Explicit bodies and states used by the counterexamples and witnesses below.
`oPieceAt` is a concrete value of the `bodyAt` oracle: the compound body the
engine builds for an O tetromino whose cells cover a 40×40 square around the
spawn point. -/

/-- A concrete engine-built compound body (O piece) at a given point. -/
def oPieceAt (pos : Vec2) : Body :=
  { position := pos, velocity := ⟨0, 0⟩, angularVelocity := 0,
    bounds := ⟨pos.x - 20, pos.y - 20, pos.x + 20, pos.y + 20⟩,
    vertices := [⟨pos.x - 20, pos.y - 20⟩, ⟨pos.x + 20, pos.y - 20⟩,
      ⟨pos.x + 20, pos.y + 20⟩, ⟨pos.x - 20, pos.y + 20⟩],
    isSleeping := false, moveCooldown := false, rotateCooldown := false }

/-- Body of a 40×20 piece that has fallen entirely below the platform
underside: top edge at y = 601 > GROUND_Y + 50. -/
def fallenBody : Body :=
  { position := ⟨200, 611⟩, velocity := ⟨0, 1⟩, angularVelocity := 0,
    bounds := ⟨180, 601, 220, 621⟩,
    vertices := [⟨180, 601⟩, ⟨220, 601⟩, ⟨220, 621⟩, ⟨180, 621⟩],
    isSleeping := false, moveCooldown := false, rotateCooldown := false }

/-- Body whose bounding-box bottom is at y = 610 = platform top + 60 (past
the underside) while its top edge (y = 590) is still above the underside. -/
def overhangBody : Body :=
  { position := ⟨200, 600⟩, velocity := ⟨0, 0⟩, angularVelocity := 0,
    bounds := ⟨180, 590, 220, 610⟩,
    vertices := [⟨180, 590⟩, ⟨220, 590⟩, ⟨220, 610⟩, ⟨180, 610⟩],
    isSleeping := false, moveCooldown := false, rotateCooldown := false }

/-- The state reached from `freshState` by the initial spawn with `oPieceAt`. -/
def s0lit : GameState :=
  { score := 0, height := 0, lives := 3, gameOver := false, currentPiece := some 0,
    pieces := [⟨0, oPieceAt ⟨200, -100⟩, false⟩], camera := ⟨0, 0, 0⟩,
    isPaused := false, pendingSpawns := 0, nextId := 1 }

/-- `s0lit` after the engine has moved the active piece below the platform. -/
def sFell : GameState :=
  { score := 0, height := 0, lives := 3, gameOver := false, currentPiece := some 0,
    pieces := [⟨0, fallenBody, false⟩], camera := ⟨0, 0, 0⟩,
    isPaused := false, pendingSpawns := 0, nextId := 1 }

/-- `sFell` after one `afterUpdate` tick: `checkPieceFell` lost a life,
cleared the active reference (and crashed the rest of the handler), but the
fallen piece is still listed. -/
def c1StateA : GameState :=
  { score := 0, height := 0, lives := 2, gameOver := false, currentPiece := none,
    pieces := [⟨0, fallenBody, false⟩], camera := ⟨0, 0, 0⟩,
    isPaused := false, pendingSpawns := 1, nextId := 1 }

/-- `c1StateA` after the next `afterUpdate` tick: `checkAllPiecesFell`
removed the same fallen piece and lost a second life; two spawn timers are
now pending. -/
def c1StateB : GameState :=
  { score := 0, height := 0, lives := 1, gameOver := false, currentPiece := none,
    pieces := [], camera := ⟨0, 0, 0⟩,
    isPaused := false, pendingSpawns := 2, nextId := 1 }

/-- `c1StateB` after the first pending spawn timer fired. -/
def c1StateC : GameState :=
  { score := 0, height := 0, lives := 1, gameOver := false, currentPiece := some 1,
    pieces := [⟨1, oPieceAt ⟨200, -100⟩, false⟩], camera := ⟨0, 0, 0⟩,
    isPaused := false, pendingSpawns := 1, nextId := 2 }

/-- `c1StateC` after the second pending spawn timer fired: two pieces with
`hasLanded = false` coexist (ids 1 and 2), only one of them active. -/
def twoFallingState : GameState :=
  { score := 0, height := 0, lives := 1, gameOver := false, currentPiece := some 2,
    pieces := [⟨1, oPieceAt ⟨200, -100⟩, false⟩, ⟨2, oPieceAt ⟨200, -150⟩, false⟩],
    camera := ⟨0, 0, 0⟩, isPaused := false, pendingSpawns := 0, nextId := 3 }

/-- A state whose active piece is already marked landed (for the idempotency
check of the landing handlers). -/
def sLanded : GameState :=
  { score := 0, height := 0, lives := 3, gameOver := false, currentPiece := some 0,
    pieces := [⟨0, overhangBody, true⟩], camera := ⟨0, 0, 0⟩,
    isPaused := false, pendingSpawns := 1, nextId := 1 }

/-- A terminal state (no lives left, game over). -/
def sOver : GameState :=
  { score := 0, height := 0, lives := 0, gameOver := true, currentPiece := none,
    pieces := [], camera := ⟨0, 0, 0⟩, isPaused := false, pendingSpawns := 0, nextId := 0 }

/-- One locked piece whose bbox bottom has passed the platform underside by
60 px while its top has not (the C5 scenario geometry). -/
def sRim : GameState :=
  { score := 0, height := 0, lives := 3, gameOver := false, currentPiece := none,
    pieces := [⟨0, overhangBody, true⟩], camera := ⟨0, 0, 0⟩,
    isPaused := false, pendingSpawns := 0, nextId := 1 }

/-- One locked piece entirely below the platform underside. -/
def sDeep : GameState :=
  { score := 0, height := 0, lives := 3, gameOver := false, currentPiece := none,
    pieces := [⟨0, fallenBody, true⟩], camera := ⟨0, 0, 0⟩,
    isPaused := false, pendingSpawns := 0, nextId := 1 }

/-- A tall locked tower occupying both the default spawn region and the
fallback region 50 px higher. -/
def towerBody : Body :=
  { position := ⟨200, -100⟩, velocity := ⟨0, 0⟩, angularVelocity := 0,
    bounds := ⟨160, -200, 240, 0⟩,
    vertices := [⟨160, -200⟩, ⟨240, -200⟩, ⟨240, 0⟩, ⟨160, 0⟩],
    isSleeping := false, moveCooldown := false, rotateCooldown := false }

/-- State with that tower locked (camera at the origin). -/
def sCrowd : GameState :=
  { score := 0, height := 0, lives := 3, gameOver := false, currentPiece := none,
    pieces := [⟨0, towerBody, true⟩], camera := ⟨0, 0, 0⟩,
    isPaused := false, pendingSpawns := 0, nextId := 1 }

/-- Two locked pieces: one resting on the platform (support score 100), one
stacked on it with a single supporting neighbour (score 30). -/
def sStack : GameState :=
  { score := 0, height := 0, lives := 3, gameOver := false, currentPiece := none,
    pieces :=
      [⟨0, { position := ⟨200, 530⟩, velocity := ⟨0, 0⟩, angularVelocity := 0,
             bounds := ⟨180, 510, 220, 550⟩,
             vertices := [⟨180, 510⟩, ⟨220, 510⟩, ⟨220, 550⟩, ⟨180, 550⟩],
             isSleeping := true, moveCooldown := false, rotateCooldown := false }, true⟩,
       ⟨1, { position := ⟨200, 490⟩, velocity := ⟨0, 0⟩, angularVelocity := 0,
             bounds := ⟨180, 470, 220, 510⟩,
             vertices := [⟨180, 470⟩, ⟨220, 470⟩, ⟨220, 510⟩, ⟨180, 510⟩],
             isSleeping := true, moveCooldown := false, rotateCooldown := false }, true⟩],
    camera := ⟨0, 0, 0⟩, isPaused := false, pendingSpawns := 0, nextId := 2 }

/-- A paused state with an active falling piece centred at x = 200. -/
def sPaused : GameState :=
  { score := 0, height := 0, lives := 3, gameOver := false, currentPiece := some 0,
    pieces := [⟨0, { position := ⟨200, 100⟩, velocity := ⟨0, 1⟩, angularVelocity := 0,
                     bounds := ⟨180, 80, 220, 120⟩,
                     vertices := [⟨180, 80⟩, ⟨220, 80⟩, ⟨220, 120⟩, ⟨180, 120⟩],
                     isSleeping := false, moveCooldown := false,
                     rotateCooldown := false }, false⟩],
    camera := ⟨0, 0, 0⟩, isPaused := true, pendingSpawns := 0, nextId := 1 }

/-- `sPaused` after `movePiece('left')`: the piece moved 10 px left even
though the game is paused. -/
def sPausedMoved : GameState :=
  { score := 0, height := 0, lives := 3, gameOver := false, currentPiece := some 0,
    pieces := [⟨0, { position := ⟨190, 100⟩, velocity := ⟨0, 1⟩, angularVelocity := 0,
                     bounds := ⟨170, 80, 210, 120⟩,
                     vertices := [⟨170, 80⟩, ⟨210, 80⟩, ⟨210, 120⟩, ⟨170, 120⟩],
                     isSleeping := false, moveCooldown := true,
                     rotateCooldown := false }, false⟩],
    camera := ⟨0, 0, 0⟩, isPaused := true, pendingSpawns := 0, nextId := 1 }

/-- A running state whose active piece was pushed far past the left clamp
boundary (centre x = 10 < BLOCK_SIZE/2 + 25). -/
def sFarLeft : GameState :=
  { score := 0, height := 0, lives := 3, gameOver := false, currentPiece := some 0,
    pieces := [⟨0, { position := ⟨10, 100⟩, velocity := ⟨0, 1⟩, angularVelocity := 0,
                     bounds := ⟨-10, 80, 30, 120⟩,
                     vertices := [⟨-10, 80⟩, ⟨30, 80⟩, ⟨30, 120⟩, ⟨-10, 120⟩],
                     isSleeping := false, moveCooldown := false,
                     rotateCooldown := false }, false⟩],
    camera := ⟨0, 0, 0⟩, isPaused := false, pendingSpawns := 0, nextId := 1 }

theorem trace_refl (l : List Piece) : Trace l l :=
  fun p' hp' => ⟨p', hp', rfl, id⟩

theorem trace_trans {l₁ l₂ l₃ : List Piece} (h₁ : Trace l₁ l₂) (h₂ : Trace l₂ l₃) :
    Trace l₁ l₃ := by
  intro p' hp'
  obtain ⟨q, hq, hid, hfl⟩ := h₂ p' hp'
  obtain ⟨r, hr, hid', hfl'⟩ := h₁ q hq
  exact ⟨r, hr, hid'.trans hid, fun h => hfl (hfl' h)⟩

theorem trace_of_sublist {l l' : List Piece} (h : l'.Sublist l) : Trace l l' :=
  fun p' hp' => ⟨p', h.subset hp', rfl, id⟩

theorem trace_of_map_flag {l : List Piece} (f : Piece → Piece)
    (hid : ∀ p, (f p).id = p.id) (hfl : ∀ p, p.hasLanded = true → (f p).hasLanded = true) :
    Trace l (l.map f) := by
  intro p' hp'
  obtain ⟨q, hq, rfl⟩ := List.mem_map.mp hp'
  exact ⟨q, hq, (hid q).symm, hfl q⟩

theorem flagMono_of_trace {s s' : GameState}
    (hnd : (s.pieces.map Piece.id).Nodup) (h : Trace s.pieces s'.pieces) :
    FlagMono s s' := by
  intro p hp p' hp' hid hfl
  obtain ⟨q, hq, hqid, hqfl⟩ := h p' hp'
  have : q = p := List.inj_on_of_nodup_map hnd hq hp (hqid.trans hid.symm)
  exact hqfl (this ▸ hfl)

/-- Membership survives erasing an index holding a different value. -/
theorem mem_eraseIdx_of_ne {α : Type} {l : List α} {a : α} :
    ∀ {i : ℕ}, a ∈ l → (∀ b, l[i]? = some b → b ≠ a) → a ∈ l.eraseIdx i := by
  induction l with
  | nil => intro i h _; cases h
  | cons x t ih =>
    intro i h hne
    cases i with
    | zero =>
      rcases List.mem_cons.mp h with rfl | h
      · exact absurd rfl (hne a (by simp))
      · simpa [List.eraseIdx] using h
    | succ j =>
      rcases List.mem_cons.mp h with rfl | h
      · simp [List.eraseIdx]
      · simpa [List.eraseIdx] using Or.inr (ih h (by simpa using hne))

theorem kinUpdate_map_id {l l' : List Piece} (h : KinUpdate l l') :
    l.map Piece.id = l'.map Piece.id := by
  induction h with
  | nil => rfl
  | cons hpq _ ih => simp [ih, hpq.1]

theorem kinUpdate_mem_left {l l' : List Piece} (h : KinUpdate l l') {p : Piece}
    (hp : p ∈ l) :
    ∃ q ∈ l', p.id = q.id ∧ p.hasLanded = q.hasLanded := by
  induction h with
  | nil => cases hp
  | cons hpq _ ih =>
    rcases List.mem_cons.mp hp with rfl | hp
    · exact ⟨_, by simp, hpq.1, hpq.2.1⟩
    · obtain ⟨q, hq, hids, hfl⟩ := ih hp
      exact ⟨q, by simp [hq], hids, hfl⟩

theorem kinUpdate_mem_right {l l' : List Piece} (h : KinUpdate l l') {q : Piece}
    (hq : q ∈ l') :
    ∃ p ∈ l, p.id = q.id ∧ p.hasLanded = q.hasLanded := by
  induction h with
  | nil => cases hq
  | cons hpq _ ih =>
    rcases List.mem_cons.mp hq with rfl | hq
    · exact ⟨_, by simp, hpq.1, hpq.2.1⟩
    · obtain ⟨p, hp, hids, hfl⟩ := ih hq
      exact ⟨p, by simp [hp], hids, hfl⟩

/-! ## Effect lemmas for the primitive operations -/

theorem calculateFinalScore_eq (s : GameState) :
    (calculateFinalScore s).pieces = s.pieces ∧
    (calculateFinalScore s).currentPiece = s.currentPiece ∧
    (calculateFinalScore s).nextId = s.nextId ∧
    (calculateFinalScore s).lives = s.lives ∧
    (calculateFinalScore s).gameOver = s.gameOver ∧
    (calculateFinalScore s).pendingSpawns = s.pendingSpawns := by
  unfold calculateFinalScore
  exact ⟨rfl, rfl, rfl, rfl, rfl, rfl⟩

theorem loseLife_eq (s : GameState) :
    (loseLife s).pieces = s.pieces ∧
    (loseLife s).currentPiece = s.currentPiece ∧
    (loseLife s).nextId = s.nextId ∧
    (loseLife s).lives = s.lives - 1 := by
  unfold loseLife gameOverNow
  dsimp only
  split
  · refine ⟨?_, ?_, ?_, ?_⟩ <;> simp [calculateFinalScore]
  · exact ⟨rfl, rfl, rfl, rfl⟩

theorem loseLife_gameOver_inv (s : GameState) :
    (loseLife s).lives ≤ 0 → (loseLife s).gameOver = true := by
  unfold loseLife gameOverNow
  dsimp only
  split
  · intro _; simp [calculateFinalScore]
  · intro h
    simp only [GameState.lives] at h
    simp_all

theorem loseLife_gameOver_mono (s : GameState) :
    s.gameOver = true → (loseLife s).gameOver = true := by
  unfold loseLife gameOverNow
  dsimp only
  intro h
  split
  · simp [calculateFinalScore]
  · exact h

theorem checkPieceFell_pieces (s : GameState) :
    (checkPieceFell s).pieces = s.pieces := by
  unfold checkPieceFell
  cases findCurrent s with
  | none => rfl
  | some p =>
    dsimp only
    split
    · split <;> simp [(loseLife_eq _).1]
    · split <;> simp [(loseLife_eq _).1]

theorem checkPieceFell_nextId (s : GameState) :
    (checkPieceFell s).nextId = s.nextId := by
  unfold checkPieceFell
  cases findCurrent s with
  | none => rfl
  | some p =>
    dsimp only
    split
    · split <;> simp [(loseLife_eq _).2.2.1]
    · split <;> simp [(loseLife_eq _).2.2.1]

theorem checkPieceFell_current (s : GameState) :
    (checkPieceFell s).currentPiece = s.currentPiece ∨
    (checkPieceFell s).currentPiece = none := by
  unfold checkPieceFell
  cases findCurrent s with
  | none => exact Or.inl rfl
  | some p =>
    dsimp only
    split
    · exact Or.inr rfl
    · split
      · exact Or.inr rfl
      · exact Or.inl rfl

theorem checkPieceFell_lives_le (s : GameState) :
    (checkPieceFell s).lives ≤ s.lives := by
  unfold checkPieceFell
  cases findCurrent s with
  | none => exact le_refl _
  | some p =>
    dsimp only
    split
    · split
      · have h1 := (loseLife_eq s).2.2.2
        have h2 := (loseLife_eq { loseLife s with currentPiece := none }).2.2.2
        simp only [h2]
        simp [h1]
        omega
      · simp [(loseLife_eq s).2.2.2]
    · split
      · simp [(loseLife_eq s).2.2.2]
      · exact le_refl _

theorem checkPieceFell_gameOver_inv (s : GameState) :
    (s.lives ≤ 0 → s.gameOver = true) →
    ((checkPieceFell s).lives ≤ 0 → (checkPieceFell s).gameOver = true) := by
  unfold checkPieceFell
  cases findCurrent s with
  | none => exact id
  | some p =>
    intro _
    dsimp only
    split
    · split
      · intro h
        show (loseLife _).gameOver = true
        exact loseLife_gameOver_inv _ h
      · intro h
        show (loseLife _).gameOver = true
        exact loseLife_gameOver_inv _ h
    · split
      · intro h
        show (loseLife _).gameOver = true
        exact loseLife_gameOver_inv _ h
      · exact fun h => by simp_all

theorem checkPieceFell_gameOver_mono (s : GameState) :
    s.gameOver = true → (checkPieceFell s).gameOver = true := by
  unfold checkPieceFell
  cases findCurrent s with
  | none => exact id
  | some p =>
    intro h
    dsimp only
    split
    · split
      · show (loseLife _).gameOver = true
        apply loseLife_gameOver_mono
        show (loseLife s).gameOver = true
        exact loseLife_gameOver_mono s h
      · show (loseLife _).gameOver = true
        exact loseLife_gameOver_mono s h
    · split
      · show (loseLife _).gameOver = true
        exact loseLife_gameOver_mono s h
      · exact h

theorem handlePieceLanded_eq (s : GameState) :
    handlePieceLanded s = s ∨
    ∃ cid, findCurrent s = some cid ∧ cid.hasLanded = false ∧
      handlePieceLanded s =
        { s with
          pieces := s.pieces.map fun (q : Piece) =>
            if q.id = cid.id then { q with hasLanded := true } else q
          currentPiece := none
          pendingSpawns := s.pendingSpawns + 1 } := by
  unfold handlePieceLanded
  cases h : findCurrent s with
  | none => exact Or.inl rfl
  | some p =>
    dsimp only
    split
    · exact Or.inl rfl
    · exact Or.inr ⟨p, rfl, by simp_all, rfl⟩

theorem handlePieceLanded_map_id (s : GameState) :
    (handlePieceLanded s).pieces.map Piece.id = s.pieces.map Piece.id := by
  rcases handlePieceLanded_eq s with h | ⟨cid, _, _, h⟩
  · rw [h]
  · rw [h]
    simp only [List.map_map]
    apply List.map_congr_left
    intro q _
    by_cases hq : q.id = cid.id <;> simp [hq]

theorem handlePieceLanded_trace (s : GameState) :
    Trace s.pieces (handlePieceLanded s).pieces := by
  rcases handlePieceLanded_eq s with h | ⟨cid, _, _, h⟩
  · rw [h]; exact trace_refl _
  · rw [h]
    apply trace_of_map_flag
    · intro p; by_cases hq : p.id = cid.id <;> simp [hq]
    · intro p hp; by_cases hq : p.id = cid.id <;> simp [hq, hp]

theorem handlePieceLanded_scalars (s : GameState) :
    (handlePieceLanded s).lives = s.lives ∧
    (handlePieceLanded s).gameOver = s.gameOver ∧
    (handlePieceLanded s).nextId = s.nextId := by
  rcases handlePieceLanded_eq s with h | ⟨cid, _, _, h⟩ <;> rw [h] <;> exact ⟨rfl, rfl, rfl⟩

theorem handlePieceLanded_current (s : GameState) :
    (handlePieceLanded s).currentPiece = s.currentPiece ∨
    (handlePieceLanded s).currentPiece = none := by
  rcases handlePieceLanded_eq s with h | ⟨cid, _, _, h⟩ <;> rw [h]
  · exact Or.inl rfl
  · exact Or.inr rfl

theorem checkPieceLanded_cases (s : GameState) (o : PhysOracle) :
    checkPieceLanded s o = s ∨ checkPieceLanded s o = handlePieceLanded s := by
  unfold checkPieceLanded
  cases findCurrent s with
  | none => exact Or.inl rfl
  | some p =>
    dsimp only
    split
    · exact Or.inl rfl
    · split
      · split
        · exact Or.inr rfl
        · exact Or.inl rfl
      · exact Or.inl rfl

theorem collideLoop_cases (s : GameState) (p : Piece) (prs : List CollPair) :
    collideLoop s p prs = s ∨ collideLoop s p prs = handlePieceLanded s := by
  induction prs with
  | nil => exact Or.inl rfl
  | cons pr rest ih =>
    unfold collideLoop
    dsimp only
    split
    · exact ih
    · split
      · exact Or.inr rfl
      · exact ih
    · split
      · split
        · exact Or.inr rfl
        · exact ih
      · exact ih
    · exact ih

theorem collisionStartHandler_cases (s : GameState) (prs : List CollPair) :
    collisionStartHandler s prs = s ∨ collisionStartHandler s prs = handlePieceLanded s := by
  unfold collisionStartHandler
  cases findCurrent s with
  | none => exact Or.inl rfl
  | some p =>
    dsimp only
    split
    · exact Or.inl rfl
    · exact collideLoop_cases s p prs

theorem processIndex_current (s : GameState) (i : ℕ) :
    (processIndex s i).currentPiece = s.currentPiece := by
  unfold processIndex
  cases s.pieces[i]? with
  | none => rfl
  | some p =>
    dsimp only
    split
    · rfl
    · split
      · simp [(loseLife_eq _).2.1]
      · split
        · simp [(loseLife_eq _).2.1]
        · rfl

theorem processIndex_nextId (s : GameState) (i : ℕ) :
    (processIndex s i).nextId = s.nextId := by
  unfold processIndex
  cases s.pieces[i]? with
  | none => rfl
  | some p =>
    dsimp only
    split
    · rfl
    · split
      · simp [(loseLife_eq _).2.2.1]
      · split
        · simp [(loseLife_eq _).2.2.1]
        · rfl

theorem processIndex_sublist (s : GameState) (i : ℕ) :
    (processIndex s i).pieces.Sublist s.pieces := by
  unfold processIndex
  cases s.pieces[i]? with
  | none => exact List.Sublist.refl _
  | some p =>
    dsimp only
    split
    · exact List.Sublist.refl _
    · split
      · rw [(loseLife_eq _).1]; exact List.eraseIdx_sublist _ _
      · split
        · rw [(loseLife_eq _).1]; exact List.eraseIdx_sublist _ _
        · exact List.Sublist.refl _

theorem processIndex_lives_le (s : GameState) (i : ℕ) :
    (processIndex s i).lives ≤ s.lives := by
  unfold processIndex
  cases s.pieces[i]? with
  | none => exact le_refl _
  | some p =>
    dsimp only
    split
    · exact le_refl _
    · split
      · rw [(loseLife_eq _).2.2.2]; dsimp only; omega
      · split
        · rw [(loseLife_eq _).2.2.2]; dsimp only; omega
        · exact le_refl _

theorem processIndex_gameOver_inv (s : GameState) (i : ℕ)
    (h : s.lives ≤ 0 → s.gameOver = true) :
    (processIndex s i).lives ≤ 0 → (processIndex s i).gameOver = true := by
  unfold processIndex
  cases s.pieces[i]? with
  | none => exact h
  | some p =>
    dsimp only
    split
    · exact h
    · split
      · exact loseLife_gameOver_inv _
      · split
        · exact loseLife_gameOver_inv _
        · exact h

theorem processIndex_gameOver_mono (s : GameState) (i : ℕ)
    (h : s.gameOver = true) : (processIndex s i).gameOver = true := by
  unfold processIndex
  cases s.pieces[i]? with
  | none => exact h
  | some p =>
    dsimp only
    split
    · exact h
    · split
      · exact loseLife_gameOver_mono _ h
      · split
        · exact loseLife_gameOver_mono _ h
        · exact h

theorem processIndex_keeps_witness (s : GameState) (i : ℕ) (cid : ℕ)
    (hcur : s.currentPiece = some cid)
    (h : ∃ p, p ∈ s.pieces ∧ p.id = cid ∧ p.hasLanded = false) :
    ∃ p, p ∈ (processIndex s i).pieces ∧ p.id = cid ∧ p.hasLanded = false := by
  obtain ⟨w, hw, hwid, hwfl⟩ := h
  unfold processIndex
  cases hp : s.pieces[i]? with
  | none => exact ⟨w, hw, hwid, hwfl⟩
  | some p =>
    dsimp only
    split
    · exact ⟨w, hw, hwid, hwfl⟩
    case isFalse hne =>
      have hpid : p.id ≠ cid := fun hc => hne (by rw [hcur, hc])
      have hmem : w ∈ s.pieces.eraseIdx i := by
        apply mem_eraseIdx_of_ne hw
        intro b hb hbw
        rw [hp] at hb
        cases hb
        exact hpid (hbw ▸ hwid)
      split
      · rw [(loseLife_eq _).1]; exact ⟨w, hmem, hwid, hwfl⟩
      · split
        · rw [(loseLife_eq _).1]; exact ⟨w, hmem, hwid, hwfl⟩
        · exact ⟨w, hw, hwid, hwfl⟩

theorem sweepFrom_current (n : ℕ) (s : GameState) :
    (sweepFrom n s).currentPiece = s.currentPiece := by
  induction n generalizing s with
  | zero => rfl
  | succ i ih => rw [sweepFrom, ih, processIndex_current]

theorem sweepFrom_nextId (n : ℕ) (s : GameState) :
    (sweepFrom n s).nextId = s.nextId := by
  induction n generalizing s with
  | zero => rfl
  | succ i ih => rw [sweepFrom, ih, processIndex_nextId]

theorem sweepFrom_sublist (n : ℕ) (s : GameState) :
    (sweepFrom n s).pieces.Sublist s.pieces := by
  induction n generalizing s with
  | zero => exact List.Sublist.refl _
  | succ i ih => exact (ih _).trans (processIndex_sublist s i)

theorem sweepFrom_lives_le (n : ℕ) (s : GameState) :
    (sweepFrom n s).lives ≤ s.lives := by
  induction n generalizing s with
  | zero => exact le_refl _
  | succ i ih => exact (ih _).trans (processIndex_lives_le s i)

theorem sweepFrom_gameOver_inv (n : ℕ) (s : GameState)
    (h : s.lives ≤ 0 → s.gameOver = true) :
    (sweepFrom n s).lives ≤ 0 → (sweepFrom n s).gameOver = true := by
  induction n generalizing s with
  | zero => exact h
  | succ i ih => exact ih _ (processIndex_gameOver_inv s i h)

theorem sweepFrom_gameOver_mono (n : ℕ) (s : GameState)
    (h : s.gameOver = true) : (sweepFrom n s).gameOver = true := by
  induction n generalizing s with
  | zero => exact h
  | succ i ih => exact ih _ (processIndex_gameOver_mono s i h)

theorem sweepFrom_keeps_witness (n : ℕ) (s : GameState) (cid : ℕ)
    (hcur : s.currentPiece = some cid)
    (h : ∃ p, p ∈ s.pieces ∧ p.id = cid ∧ p.hasLanded = false) :
    ∃ p, p ∈ (sweepFrom n s).pieces ∧ p.id = cid ∧ p.hasLanded = false := by
  induction n generalizing s with
  | zero => exact h
  | succ i ih =>
    rw [sweepFrom]
    exact ih _ (by rw [processIndex_current]; exact hcur)
      (processIndex_keeps_witness s i cid hcur h)

theorem checkAllPiecesFell_current (s : GameState) :
    (checkAllPiecesFell s).currentPiece = s.currentPiece := by
  unfold checkAllPiecesFell
  split
  · rfl
  · exact sweepFrom_current _ _

theorem checkAllPiecesFell_nextId (s : GameState) :
    (checkAllPiecesFell s).nextId = s.nextId := by
  unfold checkAllPiecesFell
  split
  · rfl
  · exact sweepFrom_nextId _ _

theorem checkAllPiecesFell_sublist (s : GameState) :
    (checkAllPiecesFell s).pieces.Sublist s.pieces := by
  unfold checkAllPiecesFell
  split
  · exact List.Sublist.refl _
  · exact sweepFrom_sublist _ _

theorem checkAllPiecesFell_lives_le (s : GameState) :
    (checkAllPiecesFell s).lives ≤ s.lives := by
  unfold checkAllPiecesFell
  split
  · exact le_refl _
  · exact sweepFrom_lives_le _ _

theorem checkAllPiecesFell_gameOver_inv (s : GameState)
    (h : s.lives ≤ 0 → s.gameOver = true) :
    (checkAllPiecesFell s).lives ≤ 0 → (checkAllPiecesFell s).gameOver = true := by
  unfold checkAllPiecesFell
  split
  · exact h
  · exact sweepFrom_gameOver_inv _ _ h

theorem checkAllPiecesFell_gameOver_mono (s : GameState)
    (h : s.gameOver = true) : (checkAllPiecesFell s).gameOver = true := by
  unfold checkAllPiecesFell
  simp [h]

theorem checkAllPiecesFell_keeps_witness (s : GameState) (cid : ℕ)
    (hcur : s.currentPiece = some cid)
    (h : ∃ p, p ∈ s.pieces ∧ p.id = cid ∧ p.hasLanded = false) :
    ∃ p, p ∈ (checkAllPiecesFell s).pieces ∧ p.id = cid ∧ p.hasLanded = false := by
  unfold checkAllPiecesFell
  split
  · exact h
  · exact sweepFrom_keeps_witness _ _ _ hcur h

/-! ## Preservation of well-formedness -/

theorem findCurrent_ne_none_of_witness (s : GameState) (cid : ℕ)
    (hcur : s.currentPiece = some cid)
    (h : ∃ p, p ∈ s.pieces ∧ p.id = cid ∧ p.hasLanded = false) :
    findCurrent s ≠ none := by
  obtain ⟨p, hp, hid, _⟩ := h
  unfold findCurrent
  rw [hcur]
  intro hnone
  simp only [Option.some_bind] at hnone
  rw [List.find?_eq_none] at hnone
  exact hnone p hp (by simp [hid])

theorem WF_checkPieceFell (s : GameState) (h : WF s) : WF (checkPieceFell s) := by
  obtain ⟨hbound, hnd, hcurw, hgo⟩ := h
  refine ⟨?_, ?_, ?_, checkPieceFell_gameOver_inv s hgo⟩
  · rw [checkPieceFell_pieces, checkPieceFell_nextId]; exact hbound
  · rw [checkPieceFell_pieces]; exact hnd
  · intro cid hc
    rcases checkPieceFell_current s with h' | h'
    · rw [checkPieceFell_pieces]
      exact hcurw cid (h' ▸ hc)
    · rw [h'] at hc; cases hc

theorem WF_handlePieceLanded (s : GameState) (h : WF s) : WF (handlePieceLanded s) := by
  obtain ⟨hbound, hnd, hcurw, hgo⟩ := h
  rcases handlePieceLanded_eq s with he | ⟨cid, _, _, he⟩
  · rw [he]; exact ⟨hbound, hnd, hcurw, hgo⟩
  · rw [he]
    refine ⟨?_, ?_, ?_, hgo⟩
    · intro p hp
      obtain ⟨q, hq, rfl⟩ := List.mem_map.mp hp
      have := hbound q hq
      by_cases hqc : q.id = cid.id <;> simp [hqc] <;> omega
    · have : (s.pieces.map fun (q : Piece) =>
          if q.id = cid.id then { q with hasLanded := true } else q).map Piece.id =
          s.pieces.map Piece.id := by
        simp only [List.map_map]
        apply List.map_congr_left
        intro q _
        by_cases hq : q.id = cid.id <;> simp [hq]
      rw [this]; exact hnd
    · intro c hc; cases hc

theorem WF_checkPieceLanded (s : GameState) (o : PhysOracle) (h : WF s) :
    WF (checkPieceLanded s o) := by
  rcases checkPieceLanded_cases s o with he | he <;> rw [he]
  · exact h
  · exact WF_handlePieceLanded s h

theorem WF_checkAllPiecesFell (s : GameState) (h : WF s) : WF (checkAllPiecesFell s) := by
  obtain ⟨hbound, hnd, hcurw, hgo⟩ := h
  refine ⟨?_, ?_, ?_, checkAllPiecesFell_gameOver_inv s hgo⟩
  · intro p hp
    rw [checkAllPiecesFell_nextId]
    exact hbound p ((checkAllPiecesFell_sublist s).subset hp)
  · exact List.Nodup.sublist ((checkAllPiecesFell_sublist s).map Piece.id) hnd
  · intro cid hc
    rw [checkAllPiecesFell_current] at hc
    exact checkAllPiecesFell_keeps_witness s cid hc (hcurw cid hc)

theorem WF_afterUpdateHandler (s : GameState) (o : PhysOracle) (h : WF s) :
    WF (afterUpdateHandler s o) := by
  unfold afterUpdateHandler
  split
  · dsimp only
    have h1 := WF_checkPieceFell s h
    cases hfc : findCurrent (checkPieceFell s) with
    | none => simp only [hfc]; exact h1
    | some p =>
      simp only [hfc]
      split
      · exact WF_checkAllPiecesFell _ (WF_checkPieceLanded _ o h1)
      · exact WF_checkAllPiecesFell _ h1
  · exact WF_checkAllPiecesFell s h

theorem WF_collisionStartHandler (s : GameState) (prs : List CollPair) (h : WF s) :
    WF (collisionStartHandler s prs) := by
  rcases collisionStartHandler_cases s prs with he | he <;> rw [he]
  · exact h
  · exact WF_handlePieceLanded s h

theorem WF_spawnNewPiece (s : GameState) (bodyAt : Vec2 → Body) (h : WF s) :
    WF (spawnNewPiece s bodyAt) := by
  obtain ⟨hbound, hnd, hcurw, hgo⟩ := h
  unfold spawnNewPiece
  split
  · exact ⟨hbound, hnd, hcurw, hgo⟩
  · dsimp only
    refine ⟨?_, ?_, ?_, hgo⟩
    · intro p hp
      rcases List.mem_append.mp hp with hp | hp
      · exact (hbound p hp).trans (Nat.lt_succ_self _)
      · simp at hp; subst hp; exact Nat.lt_succ_self _
    · rw [List.map_append]
      rw [List.nodup_append]
      refine ⟨hnd, by simp, ?_⟩
      intro a ha hb
      simp at hb
      obtain ⟨q, hq, rfl⟩ := List.mem_map.mp ha
      exact absurd (hb ▸ hbound q hq) (lt_irrefl _)
    · intro cid hc
      simp only [Option.some.injEq] at hc
      exact ⟨{ id := s.nextId, body := bodyAt (findSafeSpawnPosition s), hasLanded := false },
        List.mem_append_right _ (by simp), hc, rfl⟩

/-- Piece maps that only touch the body preserve ids and flags. -/
theorem WF_mapBody (s : GameState) (f : Piece → Piece)
    (hid : ∀ p, (f p).id = p.id) (hfl : ∀ p, (f p).hasLanded = p.hasLanded)
    (h : WF s) : WF { s with pieces := s.pieces.map f } := by
  obtain ⟨hbound, hnd, hcurw, hgo⟩ := h
  refine ⟨?_, ?_, ?_, hgo⟩
  · intro p hp
    obtain ⟨q, hq, rfl⟩ := List.mem_map.mp hp
    simpa [hid q] using hbound q hq
  · have : (s.pieces.map f).map Piece.id = s.pieces.map Piece.id := by
      simp only [List.map_map]
      exact List.map_congr_left fun q _ => hid q
    rw [this]; exact hnd
  · intro cid hc
    obtain ⟨p, hp, hpid, hpfl⟩ := hcurw cid hc
    exact ⟨f p, List.mem_map_of_mem f hp, by simp [hid p, hpid], by simp [hfl p, hpfl]⟩

theorem updatePieceBody_shape (s : GameState) (pid : ℕ) (b : Body) :
    updatePieceBody s pid b =
      { s with pieces := s.pieces.map fun (q : Piece) =>
          if q.id = pid then { q with body := b } else q } := rfl

theorem WF_updatePieceBody (s : GameState) (pid : ℕ) (b : Body) (h : WF s) :
    WF (updatePieceBody s pid b) := by
  rw [updatePieceBody_shape]
  apply WF_mapBody s _ _ _ h
  · intro p; by_cases hq : p.id = pid <;> simp [hq]
  · intro p; by_cases hq : p.id = pid <;> simp [hq]

theorem WF_movePiece (s : GameState) (d : Dir) (h : WF s) : WF (movePiece s d) := by
  unfold movePiece
  split
  · exact h
  · cases findCurrent s with
    | none => exact h
    | some p => exact WF_updatePieceBody s p.id _ h

theorem WF_rotatePiece (s : GameState) (h : WF s) : WF (rotatePiece s) := by
  unfold rotatePiece
  split
  · exact h
  · cases findCurrent s with
    | none => exact h
    | some p =>
      dsimp only
      split
      · exact WF_updatePieceBody s p.id _ h
      · exact WF_updatePieceBody s p.id _ h

theorem WF_dropPiece (s : GameState) (h : WF s) : WF (dropPiece s) := by
  unfold dropPiece
  split
  · exact h
  · cases findCurrent s with
    | none => exact h
    | some p => exact WF_updatePieceBody s p.id _ h

theorem WF_updateCamera (s : GameState) (h : WF s) : WF (updateCamera s) := by
  obtain ⟨hbound, hnd, hcurw, hgo⟩ := h
  unfold updateCamera
  split
  · exact ⟨hbound, hnd, hcurw, hgo⟩
  · exact ⟨hbound, hnd, hcurw, hgo⟩

theorem WF_calculateTowerHeight (s : GameState) (h : WF s) : WF (calculateTowerHeight s) := by
  obtain ⟨hbound, hnd, hcurw, hgo⟩ := h
  unfold calculateTowerHeight
  split
  · exact ⟨hbound, hnd, hcurw, hgo⟩
  · exact ⟨hbound, hnd, hcurw, hgo⟩

theorem WF_togglePause (s : GameState) (h : WF s) : WF (togglePause s) := by
  obtain ⟨hbound, hnd, hcurw, hgo⟩ := h
  exact ⟨hbound, hnd, hcurw, hgo⟩

theorem WF_clearMoveCooldown (s : GameState) (pid : ℕ) (h : WF s) :
    WF (clearMoveCooldown s pid) := by
  apply WF_mapBody s _ _ _ h
  · intro p; by_cases hq : p.id = pid <;> simp [hq]
  · intro p; by_cases hq : p.id = pid <;> simp [hq]

theorem WF_clearRotateCooldown (s : GameState) (pid : ℕ) (h : WF s) :
    WF (clearRotateCooldown s pid) := by
  apply WF_mapBody s _ _ _ h
  · intro p; by_cases hq : p.id = pid <;> simp [hq]
  · intro p; by_cases hq : p.id = pid <;> simp [hq]

theorem WF_physics (s : GameState) (ps' : List Piece) (hk : KinUpdate s.pieces ps')
    (h : WF s) : WF { s with pieces := ps' } := by
  obtain ⟨hbound, hnd, hcurw, hgo⟩ := h
  refine ⟨?_, ?_, ?_, hgo⟩
  · intro p hp
    obtain ⟨q, hq, hid, _⟩ := kinUpdate_mem_right hk hp
    simpa [hid] using hbound q hq
  · rw [show ps'.map Piece.id = s.pieces.map Piece.id from (kinUpdate_map_id hk).symm]
    exact hnd
  · intro cid hc
    obtain ⟨p, hp, hpid, hpfl⟩ := hcurw cid hc
    obtain ⟨q, hq, hid, hfl⟩ := kinUpdate_mem_left hk hp
    exact ⟨q, hq, hid ▸ hpid, hfl ▸ hpfl⟩

/-- Every event of a session preserves well-formedness. -/
theorem WF_step {s s' : GameState} (h : WF s) (hs : Step s s') : WF s' := by
  cases hs with
  | physics hp hk => exact WF_physics _ _ hk h
  | afterU o hp => exact WF_afterUpdateHandler _ o h
  | collide prs hp => exact WF_collisionStartHandler _ prs h
  | spawnTimer bodyAt hpend =>
    apply WF_spawnNewPiece
    obtain ⟨hbound, hnd, hcurw, hgo⟩ := h
    exact ⟨hbound, hnd, hcurw, hgo⟩
  | moveCmd d => exact WF_movePiece _ d h
  | rotateCmd => exact WF_rotatePiece _ h
  | dropCmd => exact WF_dropPiece _ h
  | camTick hg hp => exact WF_updateCamera _ h
  | uiTick hg hp => exact WF_calculateTowerHeight _ h
  | pauseCmd => exact WF_togglePause _ h
  | clearMoveCd pid => exact WF_clearMoveCooldown _ pid h
  | clearRotateCd pid => exact WF_clearRotateCooldown _ pid h

theorem WF_init (bodyAt : Vec2 → Body) : WF (spawnNewPiece freshState bodyAt) := by
  apply WF_spawnNewPiece
  refine ⟨?_, ?_, ?_, ?_⟩ <;> simp [freshState, WF]

/-- Every reachable session state is well-formed. -/
theorem WF_reachable {s : GameState} (h : Reachable s) : WF s := by
  induction h with
  | init bodyAt => exact WF_init bodyAt
  | step _ hs ih => exact WF_step ih hs

/-! ## Monotonicity of lives, the terminal flag, and the landed flag -/

theorem checkPieceFell_trace (s : GameState) : Trace s.pieces (checkPieceFell s).pieces := by
  rw [checkPieceFell_pieces]; exact trace_refl _

theorem checkPieceLanded_trace (s : GameState) (o : PhysOracle) :
    Trace s.pieces (checkPieceLanded s o).pieces := by
  rcases checkPieceLanded_cases s o with he | he <;> rw [he]
  · exact trace_refl _
  · exact handlePieceLanded_trace s

theorem checkAllPiecesFell_trace (s : GameState) :
    Trace s.pieces (checkAllPiecesFell s).pieces :=
  trace_of_sublist (checkAllPiecesFell_sublist s)

theorem afterUpdateHandler_trace (s : GameState) (o : PhysOracle) :
    Trace s.pieces (afterUpdateHandler s o).pieces := by
  unfold afterUpdateHandler
  split
  · dsimp only
    cases hfc : findCurrent (checkPieceFell s) with
    | none => simp only [hfc]; exact checkPieceFell_trace s
    | some p =>
      simp only [hfc]
      split
      · exact trace_trans (checkPieceFell_trace s)
          (trace_trans (checkPieceLanded_trace _ o) (checkAllPiecesFell_trace _))
      · exact trace_trans (checkPieceFell_trace s) (checkAllPiecesFell_trace _)
  · exact checkAllPiecesFell_trace s

theorem afterUpdateHandler_lives_le (s : GameState) (o : PhysOracle) :
    (afterUpdateHandler s o).lives ≤ s.lives := by
  unfold afterUpdateHandler
  split
  · dsimp only
    cases hfc : findCurrent (checkPieceFell s) with
    | none => simp only [hfc]; exact checkPieceFell_lives_le s
    | some p =>
      simp only [hfc]
      have hland : ∀ t : GameState, (handlePieceLanded t).lives = t.lives :=
        fun t => (handlePieceLanded_scalars t).1
      split
      · have h1 : (checkPieceLanded (checkPieceFell s) o).lives ≤ (checkPieceFell s).lives := by
          rcases checkPieceLanded_cases (checkPieceFell s) o with he | he
          · rw [he]
          · rw [he]; exact le_of_eq (hland _)
        exact le_trans (le_trans (checkAllPiecesFell_lives_le _) h1) (checkPieceFell_lives_le s)
      · exact le_trans (checkAllPiecesFell_lives_le _) (checkPieceFell_lives_le s)
  · exact checkAllPiecesFell_lives_le s

theorem afterUpdateHandler_gameOver_mono (s : GameState) (o : PhysOracle)
    (h : s.gameOver = true) : (afterUpdateHandler s o).gameOver = true := by
  unfold afterUpdateHandler
  split
  · dsimp only
    cases hfc : findCurrent (checkPieceFell s) with
    | none => simp only [hfc]; exact checkPieceFell_gameOver_mono s h
    | some p =>
      simp only [hfc]
      have hland : ∀ t : GameState, (handlePieceLanded t).gameOver = t.gameOver :=
        fun t => (handlePieceLanded_scalars t).2.1
      split
      · apply checkAllPiecesFell_gameOver_mono
        rcases checkPieceLanded_cases (checkPieceFell s) o with he | he <;> rw [he]
        · exact checkPieceFell_gameOver_mono s h
        · rw [hland]; exact checkPieceFell_gameOver_mono s h
      · exact checkAllPiecesFell_gameOver_mono _ (checkPieceFell_gameOver_mono s h)
  · exact checkAllPiecesFell_gameOver_mono s h

theorem mapBody_trace (l : List Piece) (f : Piece → Piece)
    (hid : ∀ p, (f p).id = p.id) (hfl : ∀ p, (f p).hasLanded = p.hasLanded) :
    Trace l (l.map f) :=
  trace_of_map_flag f hid fun p hp => (hfl p).trans hp

theorem updatePieceBody_trace (s : GameState) (pid : ℕ) (b : Body) :
    Trace s.pieces (updatePieceBody s pid b).pieces := by
  rw [updatePieceBody_shape]
  apply mapBody_trace
  · intro p; by_cases hq : p.id = pid <;> simp [hq]
  · intro p; by_cases hq : p.id = pid <;> simp [hq]

theorem movePiece_trace (s : GameState) (d : Dir) : Trace s.pieces (movePiece s d).pieces := by
  unfold movePiece
  split
  · exact trace_refl _
  · cases findCurrent s with
    | none => exact trace_refl _
    | some p => exact updatePieceBody_trace s p.id _

theorem rotatePiece_trace (s : GameState) : Trace s.pieces (rotatePiece s).pieces := by
  unfold rotatePiece
  split
  · exact trace_refl _
  · cases findCurrent s with
    | none => exact trace_refl _
    | some p =>
      dsimp only
      split
      · exact updatePieceBody_trace s p.id _
      · exact updatePieceBody_trace s p.id _

theorem dropPiece_trace (s : GameState) : Trace s.pieces (dropPiece s).pieces := by
  unfold dropPiece
  split
  · exact trace_refl _
  · cases findCurrent s with
    | none => exact trace_refl _
    | some p => exact updatePieceBody_trace s p.id _

theorem movePiece_scalars (s : GameState) (d : Dir) :
    (movePiece s d).lives = s.lives ∧ (movePiece s d).gameOver = s.gameOver := by
  unfold movePiece
  split
  · exact ⟨rfl, rfl⟩
  · cases findCurrent s with
    | none => exact ⟨rfl, rfl⟩
    | some p => exact ⟨rfl, rfl⟩

theorem rotatePiece_scalars (s : GameState) :
    (rotatePiece s).lives = s.lives ∧ (rotatePiece s).gameOver = s.gameOver := by
  unfold rotatePiece
  split
  · exact ⟨rfl, rfl⟩
  · cases findCurrent s with
    | none => exact ⟨rfl, rfl⟩
    | some p =>
      dsimp only
      split
      · exact ⟨rfl, rfl⟩
      · exact ⟨rfl, rfl⟩

theorem dropPiece_scalars (s : GameState) :
    (dropPiece s).lives = s.lives ∧ (dropPiece s).gameOver = s.gameOver := by
  unfold dropPiece
  split
  · exact ⟨rfl, rfl⟩
  · cases findCurrent s with
    | none => exact ⟨rfl, rfl⟩
    | some p => exact ⟨rfl, rfl⟩

theorem updateCamera_scalars (s : GameState) :
    (updateCamera s).lives = s.lives ∧ (updateCamera s).gameOver = s.gameOver ∧
    (updateCamera s).pieces = s.pieces ∧ (updateCamera s).currentPiece = s.currentPiece := by
  unfold updateCamera
  split
  · exact ⟨rfl, rfl, rfl, rfl⟩
  · exact ⟨rfl, rfl, rfl, rfl⟩

theorem calculateTowerHeight_scalars (s : GameState) :
    (calculateTowerHeight s).lives = s.lives ∧ (calculateTowerHeight s).gameOver = s.gameOver ∧
    (calculateTowerHeight s).pieces = s.pieces := by
  unfold calculateTowerHeight
  split
  · exact ⟨rfl, rfl, rfl⟩
  · exact ⟨rfl, rfl, rfl⟩

theorem spawnNewPiece_scalars (s : GameState) (bodyAt : Vec2 → Body) :
    (spawnNewPiece s bodyAt).lives = s.lives ∧
    (spawnNewPiece s bodyAt).gameOver = s.gameOver := by
  unfold spawnNewPiece
  split
  · exact ⟨rfl, rfl⟩
  · exact ⟨rfl, rfl⟩

theorem spawnNewPiece_flagMono (s : GameState) (bodyAt : Vec2 → Body) (h : WF s) :
    FlagMono s (spawnNewPiece s bodyAt) := by
  obtain ⟨hbound, hnd, _, _⟩ := h
  unfold spawnNewPiece
  split
  · exact flagMono_of_trace hnd (trace_refl _)
  · intro p hp p' hp' hid hfl
    dsimp only at hp'
    rcases List.mem_append.mp hp' with hp' | hp'
    · have : p = p' := List.inj_on_of_nodup_map hnd hp hp' hid
      exact this ▸ hfl
    · simp at hp'
      subst hp'
      exact absurd (hid ▸ hbound p hp) (lt_irrefl _)

theorem physics_flagMono (s : GameState) (ps' : List Piece)
    (hk : KinUpdate s.pieces ps') (h : WF s) : FlagMono s { s with pieces := ps' } := by
  obtain ⟨_, hnd, _, _⟩ := h
  intro p hp p' hp' hid hfl
  obtain ⟨q, hq, hqid, hqfl⟩ := kinUpdate_mem_right hk hp'
  have : q = p := List.inj_on_of_nodup_map hnd hq hp (hqid.trans hid.symm)
  rw [← hqfl, this, hfl]

/-- Lives never increase, the terminal flag is never cleared, and a landed
piece never returns to FALLING — across every event of a session. -/
theorem step_effects {s s' : GameState} (hwf : WF s) (h : Step s s') :
    s'.lives ≤ s.lives ∧ (s.gameOver = true → s'.gameOver = true) ∧ FlagMono s s' := by
  have hnd := hwf.2.1
  cases h with
  | physics hp hk =>
    exact ⟨le_refl _, fun h => h, physics_flagMono _ _ hk hwf⟩
  | afterU o hp =>
    exact ⟨afterUpdateHandler_lives_le s o, afterUpdateHandler_gameOver_mono s o,
      flagMono_of_trace hnd (afterUpdateHandler_trace s o)⟩
  | collide prs hp =>
    rcases collisionStartHandler_cases s prs with he | he <;> rw [he]
    · exact ⟨le_refl _, fun h => h, flagMono_of_trace hnd (trace_refl _)⟩
    · exact ⟨le_of_eq (handlePieceLanded_scalars s).1,
        fun h => (handlePieceLanded_scalars s).2.1 ▸ h,
        flagMono_of_trace hnd (handlePieceLanded_trace s)⟩
  | spawnTimer bodyAt hpend =>
    refine ⟨?_, ?_, ?_⟩
    · exact le_of_eq (spawnNewPiece_scalars _ bodyAt).1
    · intro hg
      rw [(spawnNewPiece_scalars _ bodyAt).2]
      exact hg
    · exact spawnNewPiece_flagMono { s with pendingSpawns := s.pendingSpawns - 1 } bodyAt
        ⟨hwf.1, hwf.2.1, hwf.2.2.1, hwf.2.2.2⟩
  | moveCmd d =>
    exact ⟨le_of_eq (movePiece_scalars s d).1, fun h => (movePiece_scalars s d).2 ▸ h,
      flagMono_of_trace hnd (movePiece_trace s d)⟩
  | rotateCmd =>
    exact ⟨le_of_eq (rotatePiece_scalars s).1, fun h => (rotatePiece_scalars s).2 ▸ h,
      flagMono_of_trace hnd (rotatePiece_trace s)⟩
  | dropCmd =>
    exact ⟨le_of_eq (dropPiece_scalars s).1, fun h => (dropPiece_scalars s).2 ▸ h,
      flagMono_of_trace hnd (dropPiece_trace s)⟩
  | camTick hg hp =>
    exact ⟨le_of_eq (updateCamera_scalars s).1, fun h => (updateCamera_scalars s).2.1 ▸ h,
      flagMono_of_trace hnd ((updateCamera_scalars s).2.2.1 ▸ trace_refl s.pieces)⟩
  | uiTick hg hp =>
    exact ⟨le_of_eq (calculateTowerHeight_scalars s).1,
      fun h => (calculateTowerHeight_scalars s).2.1 ▸ h,
      flagMono_of_trace hnd ((calculateTowerHeight_scalars s).2.2 ▸ trace_refl s.pieces)⟩
  | pauseCmd =>
    exact ⟨le_refl _, fun h => h, flagMono_of_trace hnd (trace_refl _)⟩
  | clearMoveCd pid =>
    refine ⟨le_refl _, fun h => h, flagMono_of_trace hnd ?_⟩
    apply mapBody_trace
    · intro p; by_cases hq : p.id = pid <;> simp [hq]
    · intro p; by_cases hq : p.id = pid <;> simp [hq]
  | clearRotateCd pid =>
    refine ⟨le_refl _, fun h => h, flagMono_of_trace hnd ?_⟩
    apply mapBody_trace
    · intro p; by_cases hq : p.id = pid <;> simp [hq]
    · intro p; by_cases hq : p.id = pid <;> simp [hq]

/-! ## A concrete session trace

`freshState` → initial spawn → the engine drops the piece below the platform
→ two `afterUpdate` ticks (double life loss for the one fall) → the two
scheduled spawn timers fire back to back. -/

theorem spawn_fresh_eq : spawnNewPiece freshState oPieceAt = s0lit := by
  norm_num [spawnNewPiece, findSafeSpawnPosition, spawnTestBounds, boundsOverlap, freshState,
    s0lit, oPieceAt, SPAWN_X, SPAWN_Y, BLOCK_SIZE, CANVAS_WIDTH]

theorem reachable_s0lit : Reachable s0lit := spawn_fresh_eq ▸ Reachable.init oPieceAt

theorem reachable_sFell : Reachable sFell := by
  have hk : KinUpdate s0lit.pieces sFell.pieces :=
    List.Forall₂.cons ⟨rfl, rfl, rfl, rfl⟩ List.Forall₂.nil
  have h := Reachable.step reachable_s0lit (Step.physics rfl hk)
  have he : ({ s0lit with pieces := sFell.pieces } : GameState) = sFell := rfl
  exact he ▸ h

theorem afterU_sFell : afterUpdateHandler sFell noCollisions = c1StateA := by
  norm_num [afterUpdateHandler, checkPieceFell, findCurrent, sFell, c1StateA, fallenBody,
    loseLife, gameOverNow, calculateFinalScore, checkAllPiecesFell, sweepFrom, processIndex,
    GROUND_Y, platformLeft, platformRight, PLATFORM_CENTER_X, PLATFORM_WIDTH,
    CANVAS_WIDTH, CANVAS_HEIGHT, BLOCK_SIZE]

theorem reachable_c1A : Reachable c1StateA :=
  afterU_sFell ▸ Reachable.step reachable_sFell (Step.afterU noCollisions rfl)

theorem afterU_c1A : afterUpdateHandler c1StateA noCollisions = c1StateB := by
  norm_num [afterUpdateHandler, checkPieceFell, findCurrent, c1StateA, c1StateB, fallenBody,
    loseLife, gameOverNow, calculateFinalScore, checkAllPiecesFell, sweepFrom, processIndex,
    GROUND_Y, platformLeft, platformRight, PLATFORM_CENTER_X, PLATFORM_WIDTH,
    CANVAS_WIDTH, CANVAS_HEIGHT, BLOCK_SIZE]
  simp

theorem reachable_c1B : Reachable c1StateB :=
  afterU_c1A ▸ Reachable.step reachable_c1A (Step.afterU noCollisions rfl)

theorem spawn_c1B : spawnNewPiece
    { c1StateB with pendingSpawns := c1StateB.pendingSpawns - 1 } oPieceAt = c1StateC := by
  norm_num [spawnNewPiece, findSafeSpawnPosition, spawnTestBounds, boundsOverlap, c1StateB,
    c1StateC, oPieceAt, SPAWN_X, SPAWN_Y, BLOCK_SIZE, CANVAS_WIDTH]

theorem reachable_c1C : Reachable c1StateC :=
  spawn_c1B ▸ Reachable.step reachable_c1B (Step.spawnTimer oPieceAt (by decide))

theorem afterU_c1C : afterUpdateHandler c1StateC noCollisions = c1StateC := by
  norm_num [afterUpdateHandler, checkPieceFell, checkPieceLanded, pieceLoopLanded,
    handlePieceLanded, findCurrent, c1StateC, oPieceAt, noCollisions,
    loseLife, gameOverNow, calculateFinalScore, checkAllPiecesFell, sweepFrom, processIndex,
    isPieceTouchingGround, isPieceAboveOther, vertexContactFallback, minQ, maxQ, groundBounds,
    GROUND_Y, platformLeft, platformRight, PLATFORM_CENTER_X, PLATFORM_WIDTH,
    CANVAS_WIDTH, CANVAS_HEIGHT, BLOCK_SIZE, VELOCITY_THRESHOLD, GROUND_CONTACT_TOLERANCE]

theorem reachable_c1C_again : Reachable c1StateC :=
  afterU_c1C ▸ Reachable.step reachable_c1C (Step.afterU noCollisions rfl)

theorem spawn_c1C : spawnNewPiece
    { c1StateC with pendingSpawns := c1StateC.pendingSpawns - 1 } oPieceAt =
    twoFallingState := by
  norm_num [spawnNewPiece, findSafeSpawnPosition, spawnTestBounds, boundsOverlap, c1StateC,
    twoFallingState, oPieceAt, SPAWN_X, SPAWN_Y, BLOCK_SIZE, CANVAS_WIDTH]

theorem reachable_twoFalling : Reachable twoFallingState :=
  spawn_c1C ▸ Reachable.step reachable_c1C_again (Step.spawnTimer oPieceAt (by decide))

/-! ## Stability-estimator lemmas -/

theorem supportScore_nonneg (s : GameState) (p : Piece) : 0 ≤ supportScore s p := by
  unfold supportScore
  split
  · norm_num
  · exact le_min (by norm_num) (by positivity)

theorem supportScore_le (s : GameState) (p : Piece) : supportScore s p ≤ 100 := by
  unfold supportScore
  split
  · exact le_refl _
  · exact min_le_left _ _

theorem stabilityFold_aux (s : GameState) (l : List Piece) (a : ℚ) (c : ℕ) :
    l.foldl (fun acc p => if isCurrent s p then acc else (acc.1 + supportScore s p, acc.2 + 1))
        (a, c) =
      (a + ((l.filter fun p => !decide (isCurrent s p)).map (supportScore s)).sum,
        c + (l.filter fun p => !decide (isCurrent s p)).length) := by
  induction l generalizing a c with
  | nil => simp
  | cons p t ih =>
    by_cases hp : isCurrent s p
    · simp [List.foldl_cons, hp, ih]
    · simp [List.foldl_cons, hp, ih]
      constructor <;> [ring; omega]

theorem stabilityFold_eq (s : GameState) :
    stabilityFold s =
      (((lockedPieces s).map (supportScore s)).sum, (lockedPieces s).length) := by
  unfold stabilityFold lockedPieces
  rw [stabilityFold_aux]
  simp

theorem jsRound_nonneg {q : ℚ} (h : 0 ≤ q) : 0 ≤ jsRound q := by
  unfold jsRound
  exact Int.le_floor.mpr (by push_cast; linarith)

theorem jsRound_le_100 {q : ℚ} (h : q ≤ 100) : jsRound q ≤ 100 := by
  unfold jsRound
  have : ⌊q + 1/2⌋ < 101 := Int.floor_lt.mpr (by push_cast; linarith)
  omega

/-! ## Camera lemmas -/

theorem camTargetY_congr (s t : GameState) (hp : t.pieces = s.pieces)
    (hc : t.currentPiece = s.currentPiece) : camTargetY t = camTargetY s := by
  unfold camTargetY
  rw [hp, hc]

theorem iterate_camera_meta (s : GameState) (n : ℕ) :
    (updateCamera^[n] s).pieces = s.pieces ∧
    (updateCamera^[n] s).currentPiece = s.currentPiece := by
  induction n with
  | zero => exact ⟨rfl, rfl⟩
  | succ n ih =>
    rw [Function.iterate_succ_apply']
    exact ⟨((updateCamera_scalars _).2.2.1).trans ih.1,
      ((updateCamera_scalars _).2.2.2).trans ih.2⟩

theorem updateCamera_y (s : GameState) (h : s.pieces ≠ []) :
    (updateCamera s).camera.y = s.camera.y + (camTargetY s - s.camera.y) * (1/20) := by
  unfold updateCamera
  rw [if_neg (by simp [List.isEmpty_iff, h])]

theorem camera_dist_formula (s : GameState) (h : s.pieces ≠ []) (n : ℕ) :
    (updateCamera^[n] s).camera.y - camTargetY s =
      ((19:ℚ)/20) ^ n * (s.camera.y - camTargetY s) := by
  induction n with
  | zero => simp
  | succ n ih =>
    rw [Function.iterate_succ_apply']
    have hm := iterate_camera_meta s n
    have hne : (updateCamera^[n] s).pieces ≠ [] := by rw [hm.1]; exact h
    rw [updateCamera_y _ hne, camTargetY_congr s _ hm.1 hm.2]
    linear_combination ((19:ℚ)/20) * ih

/-! ## Move-command lemmas -/

theorem find?_map_id (l : List Piece) (f : Piece → Piece) (hid : ∀ q, (f q).id = q.id)
    (cid : ℕ) :
    (l.map f).find? (fun q => q.id = cid) = (l.find? fun q => q.id = cid).map f := by
  induction l with
  | nil => rfl
  | cons q t ih =>
    by_cases hq : q.id = cid
    · rw [List.map_cons, List.find?_cons_of_pos _ (by simp [hid q, hq]),
        List.find?_cons_of_pos _ (by simp [hq])]
      rfl
    · rw [List.map_cons, List.find?_cons_of_neg _ (by simp [hid q, hq]),
        List.find?_cons_of_neg _ (by simp [hq]), ih]

theorem findCurrent_updatePieceBody (s : GameState) (p : Piece) (b : Body)
    (hc : findCurrent s = some p) :
    findCurrent (updatePieceBody s p.id b) = some { p with body := b } := by
  unfold findCurrent at hc
  unfold findCurrent updatePieceBody
  cases hcp : s.currentPiece with
  | none => rw [hcp] at hc; cases hc
  | some cid =>
    rw [hcp] at hc
    simp only [Option.some_bind] at hc
    dsimp only
    simp only [Option.some_bind]
    rw [find?_map_id s.pieces _ (fun q => by by_cases hq : q.id = p.id <;> simp [hq]) cid, hc]
    simp

/-! ## Clamp arithmetic for `movePiece` -/

theorem clamp_left_abs (x : ℚ) (h : 25 ≤ x) :
    |max (BLOCK_SIZE / 2 + 25) (x - BLOCK_SIZE / 2) - x| ≤ BLOCK_SIZE / 2 := by
  have e : BLOCK_SIZE / 2 + 25 = (35:ℚ) := by norm_num [BLOCK_SIZE]
  have e2 : BLOCK_SIZE / 2 = (10:ℚ) := by norm_num [BLOCK_SIZE]
  rw [e, e2, abs_le]
  constructor
  · have := le_max_right (35:ℚ) (x - 10)
    linarith
  · have : max (35:ℚ) (x - 10) ≤ x + 10 := max_le (by linarith) (by linarith)
    linarith

theorem clamp_right_abs (x : ℚ) (h : x ≤ 375) :
    |min (CANVAS_WIDTH - BLOCK_SIZE / 2 - 25) (x + BLOCK_SIZE / 2) - x| ≤ BLOCK_SIZE / 2 := by
  have e : CANVAS_WIDTH - BLOCK_SIZE / 2 - 25 = (365:ℚ) := by norm_num [BLOCK_SIZE, CANVAS_WIDTH]
  have e2 : BLOCK_SIZE / 2 = (10:ℚ) := by norm_num [BLOCK_SIZE]
  rw [e, e2, abs_le]
  constructor
  · have : x - 10 ≤ min (365:ℚ) (x + 10) := le_min (by linarith) (by linarith)
    linarith
  · have := min_le_right (365:ℚ) (x + 10)
    linarith

theorem clamp_left_range (x : ℚ) (h1 : 35 ≤ x) (h2 : x ≤ 365) :
    35 ≤ max (BLOCK_SIZE / 2 + 25) (x - BLOCK_SIZE / 2) ∧
    max (BLOCK_SIZE / 2 + 25) (x - BLOCK_SIZE / 2) ≤ 365 := by
  have e : BLOCK_SIZE / 2 + 25 = (35:ℚ) := by norm_num [BLOCK_SIZE]
  have e2 : BLOCK_SIZE / 2 = (10:ℚ) := by norm_num [BLOCK_SIZE]
  rw [e, e2]
  exact ⟨le_max_left _ _, max_le (by linarith) (by linarith)⟩

theorem clamp_right_range (x : ℚ) (h1 : 35 ≤ x) (h2 : x ≤ 365) :
    35 ≤ min (CANVAS_WIDTH - BLOCK_SIZE / 2 - 25) (x + BLOCK_SIZE / 2) ∧
    min (CANVAS_WIDTH - BLOCK_SIZE / 2 - 25) (x + BLOCK_SIZE / 2) ≤ 365 := by
  have e : CANVAS_WIDTH - BLOCK_SIZE / 2 - 25 = (365:ℚ) := by norm_num [BLOCK_SIZE, CANVAS_WIDTH]
  have e2 : BLOCK_SIZE / 2 = (10:ℚ) := by norm_num [BLOCK_SIZE]
  rw [e, e2]
  exact ⟨le_min (by linarith) (by linarith), min_le_left _ _⟩

/-! ## The claims -/

/-- C1 (amended): in every reachable session state the active-piece reference
is null or denotes a listed piece with `hasLanded = false`, and `hasLanded`
is write-once (never reset) across every session event.  The further
conjunct of the original claim — at most one piece in FALLING state at any
time — is refuted by `C1_two_falling_counterexample`: a fall counted by both
fall detectors schedules two delayed spawns whose firing leaves two unlanded
pieces. -/
theorem C1_active_reference_and_write_once :
    (∀ s : GameState, Reachable s → ∀ cid : ℕ, s.currentPiece = some cid →
      ∃ p, p ∈ s.pieces ∧ p.id = cid ∧ p.hasLanded = false) ∧
    (∀ s s' : GameState, Reachable s → Step s s' → FlagMono s s') :=
  ⟨fun s hs cid hc => (WF_reachable hs).2.2.1 cid hc,
   fun _ _ hs hstep => (step_effects (WF_reachable hs) hstep).2.2⟩

theorem C1_active_reference_and_write_once_witness :
    (∃ p, p ∈ sFell.pieces ∧ p.id = 0 ∧ p.hasLanded = false) ∧ FlagMono sFell c1StateA :=
  ⟨C1_active_reference_and_write_once.1 sFell reachable_sFell 0 rfl,
   afterU_sFell ▸ C1_active_reference_and_write_once.2 sFell _ reachable_sFell
     (Step.afterU noCollisions rfl)⟩

theorem C1_two_falling_counterexample :
    Reachable twoFallingState ∧
    (twoFallingState.pieces.filter fun p => !p.hasLanded).length = 2 ∧
    twoFallingState.currentPiece = some 2 :=
  ⟨reachable_twoFalling, rfl, rfl⟩

/-- C2: when the active piece is already marked landed, re-invoking either
`handlePieceLanded` or `checkPieceLanded` (with any engine collision report)
leaves the whole game state — including the pending spawn timers —
unchanged. -/
theorem C2_landing_idempotent (s : GameState) (p : Piece) (o : PhysOracle)
    (hc : findCurrent s = some p) (hl : p.hasLanded = true) :
    handlePieceLanded s = s ∧ checkPieceLanded s o = s := by
  unfold handlePieceLanded checkPieceLanded
  rw [hc]
  simp [hl]

theorem C2_landing_idempotent_witness :
    handlePieceLanded sLanded = sLanded ∧ checkPieceLanded sLanded noCollisions = sLanded :=
  C2_landing_idempotent sLanded ⟨0, overhangBody, true⟩ noCollisions rfl rfl

/-- C3: across every event of a session, lives never increase; in every
state reached by an event from a reachable state, exhausted lives imply the
terminal flag is set; and `spawnNewPiece` is a no-op on any terminal
state. -/
theorem C3_lives_monotone_terminal (s s' : GameState) (hr : Reachable s) (hst : Step s s') :
    s'.lives ≤ s.lives ∧
    (s'.lives ≤ 0 → s'.gameOver = true) ∧
    (∀ t : GameState, ∀ bodyAt : Vec2 → Body, t.gameOver = true →
      spawnNewPiece t bodyAt = t) := by
  refine ⟨(step_effects (WF_reachable hr) hst).1,
    (WF_step (WF_reachable hr) hst).2.2.2, ?_⟩
  intro t bodyAt hg
  unfold spawnNewPiece
  rw [if_pos hg]

theorem C3_lives_monotone_terminal_witness :
    (afterUpdateHandler sFell noCollisions).lives ≤ sFell.lives ∧
    ((afterUpdateHandler sFell noCollisions).lives ≤ 0 →
      (afterUpdateHandler sFell noCollisions).gameOver = true) ∧
    (∀ t : GameState, ∀ bodyAt : Vec2 → Body, t.gameOver = true →
      spawnNewPiece t bodyAt = t) :=
  C3_lives_monotone_terminal sFell _ reachable_sFell (Step.afterU noCollisions rfl)

/-- C4: the code loses two lives for one fallen piece.  With the active
piece entirely below the platform underside, the first `afterUpdate` tick
decrements lives in `checkPieceFell` and clears the active reference
without delisting the piece (the handler then aborts on the null
dereference); the next tick's `checkAllPiecesFell` finds the same piece,
removes it and decrements lives again: 3 → 2 → 1 for a single fall. -/
theorem C4_double_life_loss_eval :
    sFell.lives = 3 ∧ sFell.pieces.length = 1 ∧
    (afterUpdateHandler sFell noCollisions).lives = 2 ∧
    (afterUpdateHandler sFell noCollisions).pieces.length = 1 ∧
    (afterUpdateHandler (afterUpdateHandler sFell noCollisions) noCollisions).lives = 1 := by
  refine ⟨rfl, rfl, ?_, ?_, ?_⟩
  · rw [afterU_sFell]
    rfl
  · rw [afterU_sFell]
    rfl
  · rw [afterU_sFell, afterU_c1A]
    rfl

/-- C5 (amended): the fall monitor removes a locked piece and decrements
lives by one when the piece's bounding box's TOPMOST point (`bounds.min.y`)
has descended past the platform underside (more than 50 px below the
platform top); a piece whose bbox bottom merely reaches platformTop + 60
while its top stays above the underside is NOT removed (see
`C5_bottom_margin_counterexample`). -/
theorem C5_top_margin_removal (s : GameState) (p : Piece)
    (hg : s.gameOver = false) (hp : s.pieces = [p]) (hnc : s.currentPiece ≠ some p.id)
    (hfall : p.body.bounds.miny > GROUND_Y + 50) :
    (checkAllPiecesFell s).pieces = [] ∧ (checkAllPiecesFell s).lives = s.lives - 1 := by
  have hlen : s.pieces.length = 1 := by rw [hp]; rfl
  have he : checkAllPiecesFell s = loseLife { s with pieces := s.pieces.eraseIdx 0 } := by
    unfold checkAllPiecesFell
    rw [if_neg (by simp [hg]), hlen]
    show processIndex s 0 = _
    unfold processIndex
    simp [hp, hnc, hfall]
  rw [he]
  constructor
  · rw [(loseLife_eq _).1]
    simp [hp]
  · rw [(loseLife_eq _).2.2.2]

theorem C5_top_margin_removal_witness :
    (checkAllPiecesFell sDeep).pieces = [] ∧
    (checkAllPiecesFell sDeep).lives = sDeep.lives - 1 :=
  C5_top_margin_removal sDeep ⟨0, fallenBody, true⟩ rfl rfl (by decide)
    (by norm_num [fallenBody, GROUND_Y, CANVAS_HEIGHT])

theorem C5_bottom_margin_counterexample :
    sRim.pieces.map (fun p => p.body.bounds.maxy) = [GROUND_Y + 60] ∧
    sRim.lives = 3 ∧
    checkAllPiecesFell sRim = sRim ∧
    afterUpdateHandler sRim noCollisions = sRim := by
  refine ⟨by norm_num [sRim, overhangBody, GROUND_Y, CANVAS_HEIGHT], rfl, ?_, ?_⟩
  · norm_num [checkAllPiecesFell, sweepFrom, processIndex, sRim, overhangBody,
      GROUND_Y, platformLeft, platformRight, PLATFORM_CENTER_X, PLATFORM_WIDTH,
      CANVAS_WIDTH, CANVAS_HEIGHT]
  · norm_num [afterUpdateHandler, checkAllPiecesFell, sweepFrom, processIndex, sRim,
      overhangBody, GROUND_Y, platformLeft, platformRight, PLATFORM_CENTER_X,
      PLATFORM_WIDTH, CANVAS_WIDTH, CANVAS_HEIGHT]

/-- C6 (amended): when no piece's bounding box intersects the test region
around the DEFAULT spawn point, `findSafeSpawnPosition` returns that default
point and its spawn region overlaps no locked piece.  When the default is
occupied the planner merely retries 50 px higher WITHOUT re-checking, so the
returned position can still overlap a locked piece
(`C6_spawn_overlap_counterexample`). -/
theorem C6_spawn_clear_default (s : GameState)
    (h : ∀ p ∈ s.pieces, boundsOverlap p.body.bounds
      (spawnTestBounds ⟨SPAWN_X, min (SPAWN_Y + s.camera.y) (s.camera.y - 100)⟩) = false) :
    findSafeSpawnPosition s = ⟨SPAWN_X, min (SPAWN_Y + s.camera.y) (s.camera.y - 100)⟩ ∧
    ∀ p ∈ s.pieces,
      boundsOverlap p.body.bounds (spawnTestBounds (findSafeSpawnPosition s)) = false := by
  have hany : (s.pieces.any fun p => boundsOverlap p.body.bounds
      (spawnTestBounds ⟨SPAWN_X, min (SPAWN_Y + s.camera.y) (s.camera.y - 100)⟩)) = false := by
    rw [List.any_eq_false]
    intro p hp
    simp [h p hp]
  have he : findSafeSpawnPosition s =
      ⟨SPAWN_X, min (SPAWN_Y + s.camera.y) (s.camera.y - 100)⟩ := by
    unfold findSafeSpawnPosition
    dsimp only
    rw [hany]
    rfl
  refine ⟨he, ?_⟩
  rw [he]
  exact h

theorem C6_spawn_clear_default_witness :
    findSafeSpawnPosition freshState =
      ⟨SPAWN_X, min (SPAWN_Y + freshState.camera.y) (freshState.camera.y - 100)⟩ ∧
    ∀ p ∈ freshState.pieces,
      boundsOverlap p.body.bounds (spawnTestBounds (findSafeSpawnPosition freshState)) = false :=
  C6_spawn_clear_default freshState (by simp [freshState])

theorem C6_spawn_overlap_counterexample :
    (sCrowd.pieces.map Piece.hasLanded = [true] ∧ sCrowd.currentPiece = none) ∧
    findSafeSpawnPosition sCrowd = ⟨200, -150⟩ ∧
    boundsOverlap (spawnTestBounds (findSafeSpawnPosition sCrowd)) towerBody.bounds = true := by
  refine ⟨⟨rfl, rfl⟩, ?_, ?_⟩
  · norm_num [findSafeSpawnPosition, spawnTestBounds, boundsOverlap, sCrowd, towerBody,
      SPAWN_X, SPAWN_Y, BLOCK_SIZE, CANVAS_WIDTH]
  · norm_num [findSafeSpawnPosition, spawnTestBounds, boundsOverlap, sCrowd, towerBody,
      SPAWN_X, SPAWN_Y, BLOCK_SIZE, CANVAS_WIDTH]

/-- C7: `calculateStability` always returns a value in [0, 100]; it returns
exactly 100 when the locked-piece set is empty (no pieces, or only the
active piece); with locked pieces present it returns the JS-rounded
arithmetic mean of the per-piece support scores, each 100 for a piece
resting on the platform band or else 30 per qualifying neighbour capped at
100 (`supportScore`). -/
theorem C7_stability_bounds_mean (s : GameState) :
    0 ≤ calculateStability s ∧ calculateStability s ≤ 100 ∧
    (lockedPieces s = [] → calculateStability s = 100) ∧
    (lockedPieces s ≠ [] → calculateStability s =
      jsRound (((lockedPieces s).map (supportScore s)).sum /
        ((lockedPieces s).length : ℚ))) := by
  unfold calculateStability
  rw [stabilityFold_eq]
  by_cases hp : s.pieces.length = 0
  · rw [if_pos hp]
    have hl : lockedPieces s = [] := by
      unfold lockedPieces
      rw [List.length_eq_zero] at hp
      rw [hp]
      rfl
    exact ⟨by norm_num, by norm_num, fun _ => rfl, fun hne => absurd hl hne⟩
  · rw [if_neg hp]
    dsimp only
    by_cases hl : (lockedPieces s).length = 0
    · rw [if_neg (by omega)]
      have hl' : lockedPieces s = [] := List.length_eq_zero.mp hl
      exact ⟨by norm_num, by norm_num, fun _ => rfl, fun hne => absurd hl' hne⟩
    · have hpos : 0 < (lockedPieces s).length := Nat.pos_of_ne_zero hl
      rw [if_pos hpos]
      have hS0 : 0 ≤ ((lockedPieces s).map (supportScore s)).sum := by
        apply List.sum_nonneg
        intro x hx
        obtain ⟨q, hq, rfl⟩ := List.mem_map.mp hx
        exact supportScore_nonneg s q
      have hS1 : ((lockedPieces s).map (supportScore s)).sum ≤
          ((lockedPieces s).length : ℚ) * 100 := by
        have := List.sum_le_card_nsmul ((lockedPieces s).map (supportScore s)) 100 (by
          intro x hx
          obtain ⟨q, hq, rfl⟩ := List.mem_map.mp hx
          exact supportScore_le s q)
        rw [List.length_map] at this
        simpa [nsmul_eq_mul] using this
      have hn : (0:ℚ) < ((lockedPieces s).length : ℚ) := by exact_mod_cast hpos
      have hq0 : 0 ≤ ((lockedPieces s).map (supportScore s)).sum /
          ((lockedPieces s).length : ℚ) := div_nonneg hS0 (le_of_lt hn)
      have hq1 : ((lockedPieces s).map (supportScore s)).sum /
          ((lockedPieces s).length : ℚ) ≤ 100 := by
        rw [div_le_iff hn]
        linarith
      refine ⟨jsRound_nonneg hq0, jsRound_le_100 hq1, ?_, fun _ => rfl⟩
      intro he
      rw [he] at hpos
      simp at hpos

theorem C7_stability_bounds_mean_witness :
    lockedPieces sStack ≠ [] ∧
    calculateStability sStack =
      jsRound (((lockedPieces sStack).map (supportScore sStack)).sum /
        ((lockedPieces sStack).length : ℚ)) ∧
    0 ≤ calculateStability sStack ∧ calculateStability sStack ≤ 100 := by
  have h := C7_stability_bounds_mean sStack
  have hne : lockedPieces sStack ≠ [] := by decide
  exact ⟨hne, h.2.2.2 hne, h.1, h.2.1⟩

/-- C8: with a fixed set of pieces (hence a fixed camera target), each
`updateCamera` tick keeps the offset between its previous value and the
target (no overshoot), and the offset comes within any positive ε of the
target after finitely many ticks. -/
theorem C8_camera_no_overshoot_convergence (s : GameState) (h : s.pieces ≠ []) (ε : ℚ)
    (hε : 0 < ε) :
    (∀ n : ℕ,
      min ((updateCamera^[n] s).camera.y) (camTargetY s) ≤ (updateCamera^[n+1] s).camera.y ∧
      (updateCamera^[n+1] s).camera.y ≤ max ((updateCamera^[n] s).camera.y) (camTargetY s)) ∧
    ∃ n : ℕ, |(updateCamera^[n] s).camera.y - camTargetY s| < ε := by
  constructor
  · intro n
    have hm := iterate_camera_meta s n
    have hne : (updateCamera^[n] s).pieces ≠ [] := by rw [hm.1]; exact h
    have hy : (updateCamera^[n+1] s).camera.y =
        (updateCamera^[n] s).camera.y +
          (camTargetY s - (updateCamera^[n] s).camera.y) * (1/20) := by
      rw [Function.iterate_succ_apply', updateCamera_y _ hne,
        camTargetY_congr s _ hm.1 hm.2]
    rw [hy]
    rcases le_total ((updateCamera^[n] s).camera.y) (camTargetY s) with hyt | hyt
    · rw [min_eq_left hyt, max_eq_right hyt]
      constructor <;> linarith
    · rw [min_eq_right hyt, max_eq_left hyt]
      constructor <;> linarith
  · by_cases hd : s.camera.y - camTargetY s = 0
    · refine ⟨0, ?_⟩
      simpa [hd] using hε
    · have habs : 0 < |s.camera.y - camTargetY s| := abs_pos.mpr hd
      obtain ⟨n, hn⟩ := exists_pow_lt_of_lt_one (div_pos hε habs)
        (by norm_num : ((19:ℚ)/20) < 1)
      refine ⟨n, ?_⟩
      rw [camera_dist_formula s h n, abs_mul, abs_pow,
        abs_of_nonneg (by norm_num : (0:ℚ) ≤ 19/20)]
      calc ((19:ℚ)/20) ^ n * |s.camera.y - camTargetY s|
          < (ε / |s.camera.y - camTargetY s|) * |s.camera.y - camTargetY s| :=
            mul_lt_mul_of_pos_right hn habs
        _ = ε := div_mul_cancel₀ ε (ne_of_gt habs)

theorem C8_camera_no_overshoot_convergence_witness :
    (∀ n : ℕ,
      min ((updateCamera^[n] sRim).camera.y) (camTargetY sRim) ≤
        (updateCamera^[n+1] sRim).camera.y ∧
      (updateCamera^[n+1] sRim).camera.y ≤
        max ((updateCamera^[n] sRim).camera.y) (camTargetY sRim)) ∧
    ∃ n : ℕ, |(updateCamera^[n] sRim).camera.y - camTargetY sRim| < 1 :=
  C8_camera_no_overshoot_convergence sRim (by decide) 1 (by norm_num)

/-- C9 (amended): each of `movePiece`, `rotatePiece` and `dropPiece` is a
no-op when there is no active piece or the game is over.  The original
claim's further case — no-op while PAUSED — is false: the guard does not
consult `isPaused`, so the commands still act on the active piece of a
paused game (`C9_paused_counterexample`). -/
theorem C9_commands_noop (s : GameState) (d : Dir)
    (h : s.currentPiece = none ∨ s.gameOver = true) :
    movePiece s d = s ∧ rotatePiece s = s ∧ dropPiece s = s := by
  have hg : (s.currentPiece.isNone || s.gameOver) = true := by
    rcases h with h | h <;> simp [h]
  unfold movePiece rotatePiece dropPiece
  rw [if_pos hg, if_pos hg, if_pos hg]
  exact ⟨rfl, rfl, rfl⟩

theorem C9_commands_noop_witness :
    movePiece sOver Dir.left = sOver ∧ rotatePiece sOver = sOver ∧ dropPiece sOver = sOver :=
  C9_commands_noop sOver Dir.left (Or.inl rfl)

theorem C9_paused_counterexample :
    sPaused.isPaused = true ∧ sPaused.gameOver = false ∧ sPaused.currentPiece = some 0 ∧
    movePiece sPaused Dir.left ≠ sPaused := by
  refine ⟨rfl, rfl, rfl, ?_⟩
  have he : movePiece sPaused Dir.left = sPausedMoved := by
    norm_num [movePiece, findCurrent, updatePieceBody, translateBodyX, sPaused, sPausedMoved,
      BLOCK_SIZE, CANVAS_WIDTH]
  rw [he]
  intro hcontra
  have h190 : ((190:ℚ)) = 200 := by
    have := congrArg (fun t : GameState => t.pieces.map fun p => p.body.position.x) hcontra
    simpa [sPausedMoved, sPaused] using this
  norm_num at h190

/-- C10 (amended): `movePiece` moves the active piece's centre to the
half-block step clamped into `[BLOCK_SIZE/2 + 25, CANVAS_WIDTH −
BLOCK_SIZE/2 − 25] = [35, 365]`, preserves the vertical velocity component
and zeroes the angular velocity; the centre changes by at most half a block
(10 px) PROVIDED the starting centre lies within [25, 375] — from further
out the clamp can move it more (`C10_half_block_counterexample`) — and a
centre starting within [35, 365] stays within that interval. -/
theorem C10_move_clamp (s : GameState) (p : Piece) (d : Dir)
    (hg : s.gameOver = false) (hc : findCurrent s = some p) :
    ∃ q : Piece, findCurrent (movePiece s d) = some q ∧ q.id = p.id ∧
      q.body.position.x = (match d with
        | Dir.left => max (BLOCK_SIZE / 2 + 25) (p.body.position.x - BLOCK_SIZE / 2)
        | Dir.right =>
          min (CANVAS_WIDTH - BLOCK_SIZE / 2 - 25) (p.body.position.x + BLOCK_SIZE / 2)) ∧
      q.body.velocity.y = p.body.velocity.y ∧
      q.body.angularVelocity = 0 ∧
      (25 ≤ p.body.position.x → p.body.position.x ≤ 375 →
        |q.body.position.x - p.body.position.x| ≤ BLOCK_SIZE / 2) ∧
      (35 ≤ p.body.position.x → p.body.position.x ≤ 365 →
        35 ≤ q.body.position.x ∧ q.body.position.x ≤ 365) := by
  have hsome : s.currentPiece.isNone = false := by
    unfold findCurrent at hc
    cases hcp : s.currentPiece with
    | none => rw [hcp] at hc; cases hc
    | some cid => rfl
  have main : ∃ q : Piece, findCurrent (movePiece s d) = some q ∧ q.id = p.id ∧
      q.body.position.x = (match d with
        | Dir.left => max (BLOCK_SIZE / 2 + 25) (p.body.position.x - BLOCK_SIZE / 2)
        | Dir.right =>
          min (CANVAS_WIDTH - BLOCK_SIZE / 2 - 25) (p.body.position.x + BLOCK_SIZE / 2)) ∧
      q.body.velocity.y = p.body.velocity.y ∧
      q.body.angularVelocity = 0 := by
    unfold movePiece
    rw [if_neg (by simp [hsome, hg]), hc]
    dsimp only
    by_cases hcd : p.body.moveCooldown
    · rw [if_neg (by simp [translateBodyX, hcd])]
      refine ⟨_, findCurrent_updatePieceBody s p _ hc, rfl, ?_, rfl, rfl⟩
      cases d <;> (dsimp only [translateBodyX]; ring)
    · rw [if_pos (by simp [translateBodyX, hcd])]
      refine ⟨_, findCurrent_updatePieceBody s p _ hc, rfl, ?_, rfl, rfl⟩
      cases d <;> (dsimp only [translateBodyX]; ring)
  obtain ⟨q, h1, h2, h3, h4, h5⟩ := main
  refine ⟨q, h1, h2, h3, h4, h5, ?_, ?_⟩
  · intro ha hb
    cases d
    · simp only [h3]
      exact clamp_left_abs _ ha
    · simp only [h3]
      exact clamp_right_abs _ hb
  · intro ha hb
    cases d
    · simp only [h3]
      exact clamp_left_range _ ha hb
    · simp only [h3]
      exact clamp_right_range _ ha hb

theorem C10_move_clamp_witness :
    ∃ q : Piece, findCurrent (movePiece sPaused Dir.left) = some q ∧ q.id = 0 ∧
      q.body.position.x =
        max (BLOCK_SIZE / 2 + 25) ((200:ℚ) - BLOCK_SIZE / 2) ∧
      q.body.velocity.y = 1 ∧ q.body.angularVelocity = 0 ∧
      |q.body.position.x - (200:ℚ)| ≤ BLOCK_SIZE / 2 ∧
      (35 ≤ q.body.position.x ∧ q.body.position.x ≤ 365) := by
  obtain ⟨q, h1, h2, h3, h4, h5, h6, h7⟩ := C10_move_clamp sPaused _ Dir.left rfl rfl
  exact ⟨q, h1, h2, h3, h4, h5, h6 (by norm_num) (by norm_num),
    h7 (by norm_num) (by norm_num)⟩

theorem C10_half_block_counterexample :
    (findCurrent sFarLeft).map (fun p => p.body.position.x) = some 10 ∧
    (findCurrent (movePiece sFarLeft Dir.left)).map (fun p => p.body.position.x) = some 35 ∧
    ¬ |(35:ℚ) - 10| ≤ BLOCK_SIZE / 2 := by
  refine ⟨rfl, ?_, by norm_num [BLOCK_SIZE]⟩
  norm_num [movePiece, findCurrent, updatePieceBody, translateBodyX, sFarLeft,
    BLOCK_SIZE, CANVAS_WIDTH]
